import Mathlib

/-!
Verification of the HIT converter (`pcluster/config/hit_converter.py`) of
aws-parallelcluster: a shallow embedding of the configuration Store, the
section/parameter data model and `HitConverter.convert`, together with
theorems settling the specification claims.

The converter source is embedded directly.  Its collaborators (the
configuration Store, the section registry/mappings, the section
constructors) are not part of the given sources, so they are modelled from
the specification, as marked in their doc comments.
-/

/-- Values held by configuration parameters: the model covers the value kinds
named by the spec (string, number, boolean) plus the unset value `Value.none`,
mirroring Python `None`. -/
inductive Value where
  | none
  | str (s : String)
  | bool (b : Bool)
  | int (n : Int)
deriving DecidableEq, Repr

/-- Python truthiness of a parameter value, used by the converter for the
legacy `maintain_initial_size` test. -/
def Value.truthy : Value → Bool
  | Value.none => false
  | Value.str s => !(s == "")
  | Value.bool b => b
  | Value.int n => !(n == 0)

/-- Python equality test between a parameter value and a string literal:
true exactly when the value is that string (any non-string value compares
unequal to a string in Python). -/
def Value.eqStr : Value → String → Bool
  | Value.str t, s => t == s
  | _, _ => false

/-- A section's parameter table: an insertion-ordered association list from
parameter key to value. -/
abbrev Params := List (String × Value)

/-- Read a parameter value (first entry with the key wins, as in a dict);
a key that is not present reads as the unset value (Python parameter
objects default to a `None` value). -/
def getValue : Params → String → Value
  | [], _ => Value.none
  | p :: ps, k => if p.1 == k then p.2 else getValue ps k

/-- Whether a parameter key is present. -/
def hasKey (ps : Params) (k : String) : Bool :=
  ps.any (fun p => p.1 == k)

/-- Assign a parameter value (the sole mutation primitive of the data
model): overwrite the entry when the key is present, append it otherwise. -/
def setValue (ps : Params) (k : String) (v : Value) : Params :=
  if hasKey ps k then ps.map (fun p => if p.1 == k then (k, v) else p)
  else ps ++ [(k, v)]

/-- Modelled from the spec: a configuration section.  `sid` is the object
identity (Python object reference), `key`/`label` the schema identifier and
instance name, `parent` the weak back-reference to the owning section (by
object identity), `params` the parameter table.  `isHit` records whether the
section was built from the HIT cluster schema, the shape from which the
spec says the cluster model is derived. -/
structure CfgSection where
  sid : Nat
  key : String
  label : String
  parent : Option Nat
  params : Params
  isHit : Bool
deriving DecidableEq, Repr

/-- Modelled from the spec: the Configuration Store, owning the section
tree, the `auto_refresh` flag and an optional file-parser mirror (a list of
file-format section names). -/
structure Store where
  sections : List CfgSection
  auto_refresh : Bool
  nextId : Nat
  parser_mirror : Option (List String)
deriving DecidableEq, Repr

/-- Modelled from the spec: `get_section(key)` returns the (first) section
with the given schema key. -/
def getSection (s : Store) (k : String) : Option CfgSection :=
  s.sections.find? (fun sec => sec.key == k)

/-- Modelled from the spec: `get_sections(key)` returns all sections with
the given schema key. -/
def getSections (s : Store) (k : String) : List CfgSection :=
  s.sections.filter (fun sec => sec.key == k)

/-- Modelled from the spec: `remove_section(key, label)` drops the section
with the given (key, label) identity. -/
def removeSection (s : Store) (k lbl : String) : Store :=
  { s with sections := s.sections.filter (fun sec => !(sec.key == k && sec.label == lbl)) }

/-- Modelled from the spec: `add_section` registers a section; adding a
section with a colliding (key, label) silently replaces it. -/
def addSection (s : Store) (sec : CfgSection) : Store :=
  { s with sections :=
      (s.sections.filter (fun a => !(a.key == sec.key && a.label == sec.label))) ++ [sec] }

/-- Look a section up by object identity. -/
def getSectionById (s : Store) (i : Nat) : Option CfgSection :=
  s.sections.find? (fun sec => sec.sid == i)

/-- Mutate a parameter of the section with the given object identity
(Python mutates the shared section object; the store is the single source
of truth for object state here). -/
def setParamById (s : Store) (i : Nat) (k : String) (v : Value) : Store :=
  { s with sections := s.sections.map (fun sec =>
      if sec.sid == i then { sec with params := setValue sec.params k v } else sec) }

/-- The two configuration model generations. -/
inductive ClusterModel where
  | SIT
  | HIT
deriving DecidableEq, Repr

/-- Modelled from the spec: `cluster_model` is derived, not stored: it is
HIT exactly when the cluster section's schema matches the HIT shape. -/
def clusterModel (s : Store) : ClusterModel :=
  match getSection s "cluster" with
  | some sec => if sec.isHit then ClusterModel.HIT else ClusterModel.SIT
  | Option.none => ClusterModel.SIT

/-- Modelled from the spec: a registry schema definition for one section
type: its key and its parameter keys.  Parameters of a freshly built
section start unset (the spec's conversion tests read untouched target
keys as unset/absent).  `isHit` marks the HIT cluster schema. -/
structure SectionDef where
  key : String
  paramKeys : List String
  isHit : Bool
deriving DecidableEq, Repr

/-- Modelled from the spec: the registry/mappings collaborator: the three
schema definitions the converter builds sections from, and the three
section-type key sets driving the stash/restore phases. -/
structure Mappings where
  CLUSTER_HIT : SectionDef
  QUEUE : SectionDef
  COMPUTE_RESOURCE : SectionDef
  CLUSTER_SIT_NESTED_SECTIONS : List String
  GLOBAL_SECTIONS : List String
  ALWAYS_PRESENT_SECTIONS : List String
deriving DecidableEq, Repr

/-- Parameter table of a freshly constructed section: every schema key,
unset. -/
def defaults (sdef : SectionDef) : Params :=
  sdef.paramKeys.map (fun k => (k, Value.none))

/-- Modelled from the spec: constructing a section from a schema definition
(`ClusterCfnSection` / `QueueJsonSection` / `JsonSection`): a fresh object
identity, the schema key, the requested label and parent. -/
def newSection (s : Store) (sdef : SectionDef) (lbl : String) (parent : Option Nat) :
    CfgSection × Store :=
  ({ sid := s.nextId, key := sdef.key, label := lbl, parent := parent,
     params := defaults sdef, isHit := sdef.isHit },
   { s with nextId := s.nextId + 1 })

/-- Modelled from the spec: `refresh` recomputes derived values across the
tree; the model carries no derived values, so it is the identity. -/
def refresh (s : Store) : Store := s

/-- `get_file_section_name`: the file-format name of a section. -/
def get_file_section_name (k lbl : String) : String := k ++ " " ++ lbl

/-- Modelled from the spec: the file parser's `remove_section`; no parser
attached means nothing to clean. -/
def parserRemove (cp : Option (List String)) (name : String) : Option (List String) :=
  match cp with
  | some ns => some (ns.filter (fun x => !(x == name)))
  | Option.none => Option.none

/-- `HitConverter._copy_param_value`: the new parameter receives the
explicit `new_value` when it is not `None`, the old parameter's value
otherwise. -/
def copy_param_value (old_value : Value) (new_value : Option Value) : Value :=
  match new_value with
  | some v => v
  | Option.none => old_value

/-- `HitConverter._store_original_sections`: collect every registered
section whose key is in the cluster-nested or global section sets. -/
def store_original_sections (M : Mappings) (s : Store) : List CfgSection :=
  (M.CLUSTER_SIT_NESTED_SECTIONS ++ M.GLOBAL_SECTIONS).foldl
    (fun acc k => acc ++ getSections s k) []

/-- One iteration of `HitConverter._restore_original_sections`: for an
always-present key first remove the default-labelled section, re-parent
cluster-nested sections to the new HIT cluster section, then re-add. -/
def restoreStep (M : Mappings) (hitId : Nat) (s : Store) (sec : CfgSection) : Store :=
  let s := if M.ALWAYS_PRESENT_SECTIONS.contains sec.key
    then removeSection s sec.key "default" else s
  let sec := if M.CLUSTER_SIT_NESTED_SECTIONS.contains sec.key
    then { sec with parent := some hitId } else sec
  addSection s sec

/-- `HitConverter._restore_original_sections` over the stashed list. -/
def restore_original_sections (M : Mappings) (hitId : Nat) (s : Store)
    (stash : List CfgSection) : Store :=
  stash.foldl (restoreStep M hitId) s

/-- `HitConverter.clean_config_mirror`: drop the legacy cluster section
entry from the attached file parser, keyed by file-format name and label. -/
def clean_config_mirror (s : Store) (hit_cluster_section : CfgSection) : Store :=
  { s with parser_mirror :=
      parserRemove s.parser_mirror (get_file_section_name "cluster" hit_cluster_section.label) }

/-- Log line emitted when the scheduler is not slurm. -/
def notRequiredMsg : String := "Conversion not required, scheduler is not slurm."

/-- Log line emitted when conversion starts. -/
def startedMsg : String :=
  "Slurm scheduler used with Single Instance Type configuration model. Starting conversion..."

/-- The warning logged for legacy exclusive placement. -/
def placementWarning : String :=
  "Warning: placement = cluster is not supported when using multiple instance types."

/-- Log line emitted when conversion completes. -/
def completedMsg : String := "Conversion to HIT completed successfully."

/-- The slurm branch of `HitConverter.convert` (source lines 47-137): build
the HIT cluster section, the default queue and compute resource, copy the
parameter values across, restore the stashed sections, refresh, restore
`auto_refresh` and clean the file parser.  Returns the mutated store and
the log lines. -/
def doConvert (M : Mappings) (s0 : Store) (sit : CfgSection) (stash : List CfgSection)
    (autoRefresh : Bool) : Store × List String :=
  let hs := newSection s0 M.CLUSTER_HIT sit.label Option.none
  let hit := hs.1
  let s := addSection (removeSection hs.2 sit.key sit.label) hit
  let qs := newSection s M.QUEUE "compute" (some hit.sid)
  let queue := qs.1
  let s := addSection qs.2 queue
  let s := setParamById s hit.sid "queue_settings" (Value.str "compute")
  let s := setParamById s queue.sid "compute_type"
    (copy_param_value (getValue sit.params "cluster_type") Option.none)
  let s := setParamById s queue.sid "enable_efa"
    (copy_param_value (getValue sit.params "enable_efa")
      (some (Value.bool ((getValue sit.params "enable_efa").eqStr "compute"))))
  let s := setParamById s queue.sid "placement_group"
    (copy_param_value (getValue sit.params "placement_group") Option.none)
  let warnings := if (getValue sit.params "placement").eqStr "cluster"
    then [placementWarning] else []
  let cs := newSection s M.COMPUTE_RESOURCE "default" (some queue.sid)
  let compute := cs.1
  let s := addSection cs.2 compute
  let s := setParamById s queue.sid "compute_resource_settings" (Value.str "default")
  let s := setParamById s compute.sid "instance_type"
    (copy_param_value (getValue sit.params "compute_instance_type") Option.none)
  let s := setParamById s compute.sid "max_count"
    (copy_param_value (getValue sit.params "max_queue_size") Option.none)
  let s := setParamById s compute.sid "spot_price"
    (copy_param_value (getValue sit.params "spot_price") Option.none)
  let sizeK := if (getValue sit.params "maintain_initial_size").truthy
    then "min_count" else "initial_count"
  let s := setParamById s compute.sid sizeK
    (copy_param_value (getValue sit.params "initial_queue_size") Option.none)
  let hitKeys : List String :=
    (match getSectionById s hit.sid with
     | some h => h.params.map (fun (p : String × Value) => p.1)
     | Option.none => ([] : List String)).filter (fun k => !(k == "enable_efa"))
  let s := (sit.params.map (fun (p : String × Value) => p.1)).foldl
    (fun st k =>
      if hitKeys.contains k then
        setParamById st hit.sid k (copy_param_value (getValue sit.params k) Option.none)
      else st) s
  let s := restore_original_sections M hit.sid s stash
  let s := refresh s
  let s := { s with auto_refresh := autoRefresh }
  let s := clean_config_mirror s hit
  (s, startedMsg :: (warnings ++ [completedMsg]))

/-- `HitConverter.convert`: no-op when the cluster model is already HIT;
otherwise stash the nested/global sections, save and clear `auto_refresh`,
and either log that conversion is not required (non-slurm scheduler) or run
the conversion.  `Option.none` models an uncaught Python error (no cluster
section to read the scheduler from). -/
def convert (M : Mappings) (s : Store) : Option (Store × List String) :=
  if clusterModel s = ClusterModel.HIT then some (s, [])
  else
    let stash := store_original_sections M s
    let autoRefresh := s.auto_refresh
    let s1 : Store := { s with auto_refresh := false }
    match getSection s1 "cluster" with
    | Option.none => Option.none
    | some sit =>
      if (getValue sit.params "scheduler").eqStr "slurm" = false then
        some (s1, [notRequiredMsg])
      else
        some (doConvert M s1 sit stash autoRefresh)

/-! ### Derived descriptions of the conversion result

The following definitions name the parameter tables and sections the
conversion produces; they are read off the converter's steps and are used
to state the structural theorems below. -/

/-- The HIT cluster section's parameters right after `queue_settings` is
assigned. -/
def hitParams0 (M : Mappings) : Params :=
  setValue (defaults M.CLUSTER_HIT) "queue_settings" (Value.str "compute")

/-- The key list the cluster-level copy loop copies into: the live HIT
cluster section's keys minus `enable_efa`. -/
def hitKeysNoEfa (M : Mappings) : List String :=
  ((hitParams0 M).map (fun p => p.1)).filter (fun k => !(k == "enable_efa"))

/-- The compute-resource key receiving the legacy `initial_queue_size`
value: `min_count` when `maintain_initial_size` is truthy, `initial_count`
otherwise. -/
def sizeKey (sitp : Params) : String :=
  if (getValue sitp "maintain_initial_size").truthy then "min_count" else "initial_count"

/-- The queue section's final parameter table. -/
def queueParamsFinal (M : Mappings) (sitp : Params) : Params :=
  setValue (setValue (setValue (setValue (defaults M.QUEUE)
    "compute_type" (getValue sitp "cluster_type"))
    "enable_efa" (Value.bool ((getValue sitp "enable_efa").eqStr "compute")))
    "placement_group" (getValue sitp "placement_group"))
    "compute_resource_settings" (Value.str "default")

/-- The compute-resource section's final parameter table. -/
def computeParamsFinal (M : Mappings) (sitp : Params) : Params :=
  setValue (setValue (setValue (setValue (defaults M.COMPUTE_RESOURCE)
    "instance_type" (getValue sitp "compute_instance_type"))
    "max_count" (getValue sitp "max_queue_size"))
    "spot_price" (getValue sitp "spot_price"))
    (sizeKey sitp) (getValue sitp "initial_queue_size")

/-- The HIT cluster section's final parameter table: `queue_settings`
assigned, then every legacy key also present in the live HIT key set
(minus `enable_efa`) copied across. -/
def hitParamsFinal (M : Mappings) (sitp : Params) : Params :=
  (sitp.map (fun p => p.1)).foldl
    (fun ps k => if (hitKeysNoEfa M).contains k then setValue ps k (getValue sitp k) else ps)
    (hitParams0 M)

/-- The HIT cluster section as produced by the conversion. -/
def hitFinal (M : Mappings) (n : Nat) (sitp : Params) (lbl : String) : CfgSection :=
  { sid := n, key := M.CLUSTER_HIT.key, label := lbl, parent := Option.none,
    params := hitParamsFinal M sitp, isHit := M.CLUSTER_HIT.isHit }

/-- The queue section as produced by the conversion. -/
def queueFinal (M : Mappings) (n : Nat) (sitp : Params) : CfgSection :=
  { sid := n + 1, key := M.QUEUE.key, label := "compute", parent := some n,
    params := queueParamsFinal M sitp, isHit := M.QUEUE.isHit }

/-- The compute-resource section as produced by the conversion. -/
def computeFinal (M : Mappings) (n : Nat) (sitp : Params) : CfgSection :=
  { sid := n + 2, key := M.COMPUTE_RESOURCE.key, label := "default", parent := some (n + 1),
    params := computeParamsFinal M sitp, isHit := M.COMPUTE_RESOURCE.isHit }

/-- The section list of the store between the copy phase and the restore
phase: the legacy cluster section replaced by the three new sections. -/
def baseSections (M : Mappings) (s : Store) (sit : CfgSection) : List CfgSection :=
  (s.sections.filter (fun a => !(a.key == "cluster" && a.label == sit.label)))
    ++ [hitFinal M s.nextId sit.params sit.label,
        queueFinal M s.nextId sit.params,
        computeFinal M s.nextId sit.params]

/-- The store handed to the restore phase. -/
def baseStore (M : Mappings) (s : Store) (sit : CfgSection) : Store :=
  { sections := baseSections M s sit, auto_refresh := s.auto_refresh,
    nextId := s.nextId + 3, parser_mirror := s.parser_mirror }

/-- Well-formedness of the registry mappings, as the spec describes them:
the three schema definitions carry their fixed keys, the HIT cluster schema
is the HIT shape, and the stashable section-type keys are disjoint from the
cluster/queue/compute-resource keys. -/
structure MWF (M : Mappings) : Prop where
  hit_key : M.CLUSTER_HIT.key = "cluster"
  hit_hit : M.CLUSTER_HIT.isHit = true
  queue_key : M.QUEUE.key = "queue"
  cr_key : M.COMPUTE_RESOURCE.key = "compute_resource"
  stash_keys : ∀ k ∈ M.CLUSTER_SIT_NESTED_SECTIONS ++ M.GLOBAL_SECTIONS,
    k ≠ "cluster" ∧ k ≠ "queue" ∧ k ≠ "compute_resource"

/-- A store holding a legacy (SIT) configuration: exactly one cluster
section (`sit`, still SIT-shaped), no HIT-era queue or compute-resource
sections yet, and object identities below the store's fresh-id counter. -/
structure SitStore (s : Store) (sit : CfgSection) : Prop where
  cluster_filter : s.sections.filter (fun sec => sec.key == "cluster") = [sit]
  no_queue : ∀ sec ∈ s.sections, sec.key ≠ "queue"
  no_cr : ∀ sec ∈ s.sections, sec.key ≠ "compute_resource"
  ids : ∀ sec ∈ s.sections, sec.sid < s.nextId
  not_hit : sit.isHit = false

/-! ### Concrete instances

A sample registry and sample stores, used to witness that the hypotheses of
the theorems below are satisfiable. -/

/-- Modelled from the spec: a HIT cluster schema sample. -/
def HIT_DEF : SectionDef :=
  { key := "cluster",
    paramKeys := ["scheduler", "queue_settings", "master_instance_type", "base_os",
      "key_name", "vpc_settings", "scaling_settings", "enable_efa"],
    isHit := true }

/-- Modelled from the spec: a queue schema sample. -/
def QUEUE_DEF : SectionDef :=
  { key := "queue",
    paramKeys := ["compute_type", "enable_efa", "placement_group",
      "compute_resource_settings", "disable_hyperthreading"],
    isHit := false }

/-- Modelled from the spec: a compute-resource schema sample. -/
def CR_DEF : SectionDef :=
  { key := "compute_resource",
    paramKeys := ["instance_type", "max_count", "min_count", "initial_count", "spot_price"],
    isHit := false }

/-- Modelled from the spec: a sample registry with cluster-nested, global
and always-present section-type key sets. -/
def M0 : Mappings :=
  { CLUSTER_HIT := HIT_DEF,
    QUEUE := QUEUE_DEF,
    COMPUTE_RESOURCE := CR_DEF,
    CLUSTER_SIT_NESTED_SECTIONS := ["vpc", "ebs", "efs", "fsx", "raid", "scaling", "dcv", "cw_log"],
    GLOBAL_SECTIONS := ["aws", "global", "aliases"],
    ALWAYS_PRESENT_SECTIONS := ["scaling", "cw_log"] }

/-- A sample legacy cluster section using the slurm scheduler, matching the
spec's field-mapping scenario. -/
def sit0 : CfgSection :=
  { sid := 0, key := "cluster", label := "default", parent := Option.none,
    params := [("scheduler", Value.str "slurm"), ("cluster_type", Value.str "ondemand"),
      ("enable_efa", Value.str "compute"), ("placement_group", Value.str "pg1"),
      ("placement", Value.str "cluster"), ("compute_instance_type", Value.str "c5.xlarge"),
      ("max_queue_size", Value.int 10), ("spot_price", Value.str "0.5"),
      ("initial_queue_size", Value.int 2), ("maintain_initial_size", Value.bool true),
      ("key_name", Value.str "mykey")],
    isHit := false }

/-- A sample cluster-nested EBS section with a custom label. -/
def ebs0 : CfgSection :=
  { sid := 1, key := "ebs", label := "custom", parent := some 0,
    params := [("volume_size", Value.int 100)], isHit := false }

/-- A sample always-present scaling section with the default label. -/
def scal0 : CfgSection :=
  { sid := 2, key := "scaling", label := "default", parent := some 0,
    params := [("scaledown_idletime", Value.int 10)], isHit := false }

/-- A sample SIT store qualifying for conversion. -/
def s0 : Store :=
  { sections := [sit0, ebs0, scal0], auto_refresh := true, nextId := 3,
    parser_mirror := some ["cluster default"] }

/-- A sample legacy cluster section using a non-slurm scheduler. -/
def sitSge : CfgSection :=
  { sid := 0, key := "cluster", label := "default", parent := Option.none,
    params := [("scheduler", Value.str "sge")], isHit := false }

/-- A sample SIT store that does not qualify for conversion. -/
def sSge : Store :=
  { sections := [sitSge, ebs0], auto_refresh := true, nextId := 3,
    parser_mirror := some ["cluster default"] }

/-- A sample legacy cluster section with `maintain_initial_size` false and
`enable_efa` naming the master fleet. -/
def sit1 : CfgSection :=
  { sid := 0, key := "cluster", label := "default", parent := Option.none,
    params := [("scheduler", Value.str "slurm"), ("cluster_type", Value.str "ondemand"),
      ("enable_efa", Value.str "master"), ("placement_group", Value.str "pg1"),
      ("placement", Value.str "compute"), ("compute_instance_type", Value.str "c5.xlarge"),
      ("max_queue_size", Value.int 10), ("spot_price", Value.str "0.5"),
      ("initial_queue_size", Value.int 2), ("maintain_initial_size", Value.bool false),
      ("key_name", Value.str "mykey")],
    isHit := false }

/-- A second qualifying sample store, built on `sit1`. -/
def s1 : Store :=
  { sections := [sit1, ebs0, scal0], auto_refresh := true, nextId := 3,
    parser_mirror := some ["cluster default"] }

/-- A sample stashed always-present section with a custom label. -/
def secC8 : CfgSection :=
  { sid := 7, key := "scaling", label := "custom", parent := some 0,
    params := [("scaledown_idletime", Value.int 7)], isHit := false }

/-- A sample store at the start of the restore phase, still holding a
default-labelled scaling section. -/
def stC8 : Store :=
  { sections := [scal0, ebs0], auto_refresh := false, nextId := 9,
    parser_mirror := Option.none }

/-! ### Generic list lemmas -/

theorem listFilterFilter (p q : α → Bool) :
    ∀ l : List α, (l.filter p).filter q = l.filter (fun a => p a && q a) := by
  intro l
  induction l with
  | nil => rfl
  | cons a t ih =>
    by_cases hp : p a = true
    · by_cases hq : q a = true
      · simp [List.filter, hp, hq, ih]
      · simp [List.filter, hp, Bool.eq_false_iff.mpr hq, ih]
    · simp [List.filter, Bool.eq_false_iff.mpr hp, ih]

theorem findEqHeadFilter (p : α → Bool) :
    ∀ l : List α, l.find? p = (l.filter p).head? := by
  intro l
  induction l with
  | nil => rfl
  | cons a t ih =>
    by_cases hp : p a = true
    · rw [List.find?_cons_of_pos _ hp, List.filter_cons, if_pos hp]
      rfl
    · rw [List.find?_cons_of_neg _ (by simp [hp]), List.filter_cons, if_neg (by simp [hp]), ih]

theorem filterEqSelfOf {p : α → Bool} :
    ∀ {l : List α}, (∀ a ∈ l, p a = true) → l.filter p = l := by
  intro l
  induction l with
  | nil => intro _; rfl
  | cons a t ih =>
    intro h
    have ha : p a = true := h a (List.mem_cons_self a t)
    have ht : t.filter p = t := ih (fun b hb => h b (List.mem_cons_of_mem a hb))
    rw [List.filter_cons, if_pos ha, ht]

theorem filterEqNilOf {p : α → Bool} :
    ∀ {l : List α}, (∀ a ∈ l, p a = false) → l.filter p = [] := by
  intro l
  induction l with
  | nil => intro _; rfl
  | cons a t ih =>
    intro h
    have ha : p a = false := h a (List.mem_cons_self a t)
    have ht : t.filter p = [] := ih (fun b hb => h b (List.mem_cons_of_mem a hb))
    rw [List.filter_cons, if_neg (by simp [ha]), ht]

theorem mapIdOn {f : α → α} :
    ∀ {l : List α}, (∀ a ∈ l, f a = a) → l.map f = l := by
  intro l
  induction l with
  | nil => intro _; rfl
  | cons a t ih =>
    intro h
    simp only [List.map, h a (by simp)]
    rw [ih (fun b hb => h b (by simp [hb]))]

theorem filterMapComm {f : α → α} {p : α → Bool} (hpf : ∀ a, p (f a) = p a) :
    ∀ l : List α, (l.map f).filter p = (l.filter p).map f := by
  intro l
  induction l with
  | nil => rfl
  | cons a t ih =>
    by_cases hp : p a = true
    · simp [List.filter, List.map, hpf, hp, ih]
    · simp [List.filter, List.map, hpf, Bool.eq_false_iff.mpr hp, ih]

theorem findAppend (p : α → Bool) :
    ∀ l1 l2 : List α, (l1 ++ l2).find? p =
      (match l1.find? p with
       | some a => some a
       | Option.none => l2.find? p) := by
  intro l1 l2
  induction l1 with
  | nil => rfl
  | cons a t ih =>
    by_cases hp : p a = true
    · simp [List.find?, hp]
    · simp [List.find?, Bool.eq_false_iff.mpr hp, ih]

/-! ### Boolean conditional and parameter table lemmas -/

theorem ifBeqTrue {c : Bool} (h : c = true) (x y : α) :
    (if c = true then x else y) = x := by
  rw [h]
  simp

theorem ifBeqFalse {c : Bool} (h : c = false) (x y : α) :
    (if c = true then x else y) = y := by
  rw [h]
  simp

theorem strBeqFalse {a b : String} (h : a ≠ b) : (a == b) = false := by
  simpa using h

theorem hasKeyCons (a : String × Value) (t : Params) (k : String) :
    hasKey (a :: t) k = ((a.1 == k) || hasKey t k) := rfl

theorem getValueConsEq (a : String × Value) (t : Params) (k : String) :
    getValue (a :: t) k = if (a.1 == k) = true then a.2 else getValue t k := rfl

theorem getValue_map_set {k : String} {v : Value} :
    ∀ {ps : Params}, hasKey ps k = true →
      getValue (ps.map (fun p => if p.1 == k then (k, v) else p)) k = v := by
  intro ps
  induction ps with
  | nil => intro h; simp [hasKey] at h
  | cons a t ih =>
    intro h
    by_cases ha : (a.1 == k) = true
    · rw [List.map_cons, ifBeqTrue ha, getValueConsEq, ifBeqTrue (by simp)]
    · have ha2 : (a.1 == k) = false := Bool.eq_false_iff.mpr ha
      have ht : hasKey t k = true := by
        rw [hasKeyCons, ha2, Bool.false_or] at h
        exact h
      rw [List.map_cons, ifBeqFalse ha2, getValueConsEq, ifBeqFalse ha2]
      exact ih ht

theorem getValue_append_of_hasKey_false {k : String} :
    ∀ {ps : Params}, hasKey ps k = false → ∀ qs : Params,
      getValue (ps ++ qs) k = getValue qs k := by
  intro ps
  induction ps with
  | nil => intro _ qs; rw [List.nil_append]
  | cons a t ih =>
    intro h qs
    rw [hasKeyCons] at h
    have ha : (a.1 == k) = false := by
      cases hx : (a.1 == k) with
      | true => rw [hx] at h; simp at h
      | false => rfl
    have ht : hasKey t k = false := by
      rw [ha, Bool.false_or] at h
      exact h
    rw [List.cons_append, getValueConsEq, ifBeqFalse ha]
    exact ih ht qs

theorem getValue_setValue_self (ps : Params) (k : String) (v : Value) :
    getValue (setValue ps k v) k = v := by
  unfold setValue
  by_cases h : hasKey ps k = true
  · rw [if_pos h]
    exact getValue_map_set h
  · have h2 : hasKey ps k = false := Bool.eq_false_iff.mpr h
    rw [if_neg h, getValue_append_of_hasKey_false h2, getValueConsEq, ifBeqTrue (by simp)]

theorem getValue_map_set_ne {k k2 : String} {v : Value} (hne : k2 ≠ k) :
    ∀ ps : Params,
      getValue (ps.map (fun p => if p.1 == k then (k, v) else p)) k2 = getValue ps k2 := by
  intro ps
  induction ps with
  | nil => rfl
  | cons a t ih =>
    by_cases ha : (a.1 == k) = true
    · have hak : a.1 = k := by simpa using ha
      have h1 : ((k : String) == k2) = false := strBeqFalse (fun e => hne e.symm)
      have h2 : (a.1 == k2) = false := by rw [hak]; exact h1
      rw [List.map_cons, ifBeqTrue ha, getValueConsEq, getValueConsEq]
      rw [show (((k, v) : String × Value).1 == k2) = false from h1]
      rw [ifBeqFalse rfl, ifBeqFalse h2]
      exact ih
    · have ha2 : (a.1 == k) = false := Bool.eq_false_iff.mpr ha
      rw [List.map_cons, ifBeqFalse ha2, getValueConsEq, getValueConsEq]
      by_cases h2 : (a.1 == k2) = true
      · rw [ifBeqTrue h2, ifBeqTrue h2]
      · have h3 : (a.1 == k2) = false := Bool.eq_false_iff.mpr h2
        rw [ifBeqFalse h3, ifBeqFalse h3]
        exact ih

theorem getValue_append_single_ne {k k2 : String} {v : Value} (hne : k2 ≠ k) :
    ∀ ps : Params, getValue (ps ++ [(k, v)]) k2 = getValue ps k2 := by
  intro ps
  induction ps with
  | nil =>
    rw [List.nil_append, getValueConsEq]
    rw [show (((k, v) : String × Value).1 == k2) = false from strBeqFalse (fun e => hne e.symm)]
    rw [ifBeqFalse rfl]
  | cons a t ih =>
    rw [List.cons_append, getValueConsEq, getValueConsEq]
    by_cases h2 : (a.1 == k2) = true
    · rw [ifBeqTrue h2, ifBeqTrue h2]
    · have h3 : (a.1 == k2) = false := Bool.eq_false_iff.mpr h2
      rw [ifBeqFalse h3, ifBeqFalse h3]
      exact ih

theorem getValue_setValue_ne {k k2 : String} (hne : k2 ≠ k) (ps : Params) (v : Value) :
    getValue (setValue ps k v) k2 = getValue ps k2 := by
  unfold setValue
  by_cases h : hasKey ps k = true
  · rw [if_pos h]
    exact getValue_map_set_ne hne ps
  · rw [if_neg h]
    exact getValue_append_single_ne hne ps

theorem getValue_defaults_aux {k : String} :
    ∀ ks : List String, getValue (ks.map (fun k2 => (k2, Value.none))) k = Value.none := by
  intro ks
  induction ks with
  | nil => rfl
  | cons a t ih =>
    rw [List.map_cons, getValueConsEq]
    by_cases ha : (((a, Value.none) : String × Value).1 == k) = true
    · rw [ifBeqTrue ha]
    · rw [ifBeqFalse (Bool.eq_false_iff.mpr ha)]
      exact ih

theorem getValue_defaults (sdef : SectionDef) (k : String) :
    getValue (defaults sdef) k = Value.none := by
  unfold defaults
  exact getValue_defaults_aux sdef.paramKeys

/-! ### Key-set and fold lemmas for the copy loop -/

theorem keys_map_set (k : String) (v : Value) :
    ∀ ps : Params,
      (ps.map (fun p => if p.1 == k then (k, v) else p)).map Prod.fst = ps.map Prod.fst := by
  intro ps
  induction ps with
  | nil => rfl
  | cons a t ih =>
    by_cases ha : (a.1 == k) = true
    · have hak : a.1 = k := by simpa using ha
      rw [List.map_cons, ifBeqTrue ha, List.map_cons, List.map_cons, ih]
      rw [show (((k, v) : String × Value).1) = a.1 from hak.symm]
    · rw [List.map_cons, ifBeqFalse (Bool.eq_false_iff.mpr ha), List.map_cons, List.map_cons, ih]

theorem hasKey_iff_mem {ps : Params} {k : String} :
    hasKey ps k = true ↔ k ∈ ps.map Prod.fst := by
  constructor
  · intro h
    simp only [hasKey, List.any_eq_true] at h
    obtain ⟨p, hp, he⟩ := h
    have : p.1 = k := by simpa using he
    rw [← this]
    exact List.mem_map_of_mem Prod.fst hp
  · intro h
    simp only [List.mem_map] at h
    obtain ⟨p, hp, he⟩ := h
    simp only [hasKey, List.any_eq_true]
    exact ⟨p, hp, by simp [he]⟩

theorem keys_setValue_of_hasKey {ps : Params} {k : String} (h : hasKey ps k = true) (v : Value) :
    (setValue ps k v).map Prod.fst = ps.map Prod.fst := by
  unfold setValue
  rw [if_pos h]
  exact keys_map_set k v ps

theorem fold_getValue_not_mem (g : String → Bool) (f : String → Value) (k : String) :
    ∀ (ks : List String) (ps : Params), k ∉ ks →
      getValue (ks.foldl (fun ps2 kk => if g kk then setValue ps2 kk (f kk) else ps2) ps) k
        = getValue ps k := by
  intro ks
  induction ks with
  | nil => intro ps _; rfl
  | cons a t ih =>
    intro ps hk
    have hka : k ≠ a := fun e => hk (e ▸ List.mem_cons_self a t)
    have hkt : k ∉ t := fun e => hk (List.mem_cons_of_mem a e)
    rw [List.foldl_cons]
    by_cases hg : g a = true
    · rw [if_pos hg, ih _ hkt, getValue_setValue_ne hka]
    · rw [if_neg hg, ih _ hkt]

theorem fold_getValue_batch (g : String → Bool) (f : String → Value) (k : String)
    (hg : g k = true) :
    ∀ (ks : List String) (ps : Params), k ∈ ks →
      getValue (ks.foldl (fun ps2 kk => if g kk then setValue ps2 kk (f kk) else ps2) ps) k
        = f k := by
  intro ks
  induction ks with
  | nil => intro ps hk; cases hk
  | cons a t ih =>
    intro ps hk
    by_cases hkt : k ∈ t
    · rw [List.foldl_cons]
      exact ih _ hkt
    · have hka : k = a := by
        cases List.mem_cons.mp hk with
        | inl h => exact h
        | inr h => exact absurd h hkt
      subst hka
      rw [List.foldl_cons, if_pos hg, fold_getValue_not_mem g f k t _ hkt,
        getValue_setValue_self]

theorem fold_keys (g : String → Bool) (f : String → Value) :
    ∀ (ks : List String) (ps : Params),
      (∀ kk ∈ ks, g kk = true → hasKey ps kk = true) →
      (ks.foldl (fun ps2 kk => if g kk then setValue ps2 kk (f kk) else ps2) ps).map Prod.fst
        = ps.map Prod.fst := by
  intro ks
  induction ks with
  | nil => intro ps _; rfl
  | cons a t ih =>
    intro ps h
    rw [List.foldl_cons]
    by_cases hg : g a = true
    · have hka : hasKey ps a = true := h a (List.mem_cons_self a t) hg
      have hkeys : (setValue ps a (f a)).map Prod.fst = ps.map Prod.fst :=
        keys_setValue_of_hasKey hka (f a)
      rw [if_pos hg, ih _ ?_, hkeys]
      intro kk hkk hgkk
      rw [hasKey_iff_mem, hkeys, ← hasKey_iff_mem]
      exact h kk (List.mem_cons_of_mem a hkk) hgkk
    · rw [if_neg hg]
      exact ih _ (fun kk hkk hgkk => h kk (List.mem_cons_of_mem a hkk) hgkk)

theorem fold_congr_batch (g : String → Bool) (f1 f2 : String → Value) :
    ∀ (ks : List String) (ps : Params),
      (∀ kk ∈ ks, g kk = true → f1 kk = f2 kk) →
      ks.foldl (fun ps2 kk => if g kk then setValue ps2 kk (f1 kk) else ps2) ps
        = ks.foldl (fun ps2 kk => if g kk then setValue ps2 kk (f2 kk) else ps2) ps := by
  intro ks
  induction ks with
  | nil => intro ps _; rfl
  | cons a t ih =>
    intro ps h
    rw [List.foldl_cons, List.foldl_cons]
    by_cases hg : g a = true
    · rw [if_pos hg, if_pos hg, h a (List.mem_cons_self a t) hg]
      exact ih _ (fun kk hkk hgkk => h kk (List.mem_cons_of_mem a hkk) hgkk)
    · rw [if_neg hg, if_neg hg]
      exact ih _ (fun kk hkk hgkk => h kk (List.mem_cons_of_mem a hkk) hgkk)

/-! ### Store operation lemmas -/

theorem filterCongrAll {p q : α → Bool} (h : ∀ a, p a = q a) (l : List α) :
    l.filter p = l.filter q := by
  have hpq : p = q := funext h
  rw [hpq]

theorem findAppendNone {p : α → Bool} {l1 : List α} (h : l1.find? p = Option.none)
    (l2 : List α) : (l1 ++ l2).find? p = l2.find? p := by
  rw [findAppend, h]

theorem findCons (p : α → Bool) (a : α) (l : List α) :
    (a :: l).find? p = if p a = true then some a else l.find? p := by
  by_cases h : p a = true
  · rw [if_pos h]
    exact List.find?_cons_of_pos l h
  · rw [if_neg h]
    exact List.find?_cons_of_neg l (by simpa using h)

theorem setParamById_split (i : Nat) (k : String) (v : Value)
    (A B : List CfgSection) (h : CfgSection) (st : Store)
    (hsec : st.sections = A ++ h :: B)
    (hA : ∀ a ∈ A, (a.sid == i) = false)
    (hB : ∀ b ∈ B, (b.sid == i) = false)
    (hh : (h.sid == i) = true) :
    setParamById st i k v
      = { st with sections := A ++ { h with params := setValue h.params k v } :: B } := by
  unfold setParamById
  rw [hsec, List.map_append, List.map_cons]
  rw [mapIdOn (fun a ha => by rw [ifBeqFalse (hA a ha)])]
  rw [mapIdOn (fun b hb => by rw [ifBeqFalse (hB b hb)])]
  rw [ifBeqTrue hh]

theorem getSectionById_split (i : Nat) (A B : List CfgSection) (h : CfgSection) (st : Store)
    (hsec : st.sections = A ++ h :: B)
    (hA : ∀ a ∈ A, (a.sid == i) = false)
    (hh : (h.sid == i) = true) :
    getSectionById st i = some h := by
  unfold getSectionById
  rw [hsec]
  rw [findAppendNone (List.find?_eq_none.mpr (fun a ha => by simp [hA a ha]))]
  simp [findCons, hh]

theorem addSection_no_collision {st : Store} {sec : CfgSection}
    (h : ∀ a ∈ st.sections, (a.key == sec.key && a.label == sec.label) = false) :
    addSection st sec = { st with sections := st.sections ++ [sec] } := by
  unfold addSection
  rw [filterEqSelfOf (fun a ha => by rw [h a ha]; rfl)]

theorem fold_setParamById_split (g : String → Bool) (f : String → Value) (i : Nat)
    (A B : List CfgSection)
    (hA : ∀ a ∈ A, (a.sid == i) = false)
    (hB : ∀ b ∈ B, (b.sid == i) = false) :
    ∀ (ks : List String) (st : Store) (h : CfgSection),
      st.sections = A ++ h :: B → (h.sid == i) = true →
      ks.foldl (fun st2 k => if g k then setParamById st2 i k (f k) else st2) st
        = { st with sections := A ++
            { h with params := ks.foldl (fun ps k => if g k then setValue ps k (f k) else ps) h.params } :: B } := by
  intro ks
  induction ks with
  | nil =>
    intro st h hsec hh
    rw [List.foldl_nil, List.foldl_nil]
    rw [show ({ h with params := h.params } : CfgSection) = h from rfl]
    rw [← hsec]
  | cons a t ih =>
    intro st h hsec hh
    rw [List.foldl_cons, List.foldl_cons]
    by_cases hg : g a = true
    · rw [if_pos hg, if_pos hg]
      rw [setParamById_split i a (f a) A B h st hsec hA hB hh]
      rw [ih _ { h with params := setValue h.params a (f a) } rfl hh]
    · rw [if_neg hg, if_neg hg]
      exact ih st h hsec hh

theorem restoreStep_auto (M : Mappings) (hitId : Nat) (st : Store) (sec : CfgSection) :
    (restoreStep M hitId st sec).auto_refresh = st.auto_refresh := by
  unfold restoreStep addSection removeSection
  by_cases h : M.ALWAYS_PRESENT_SECTIONS.contains sec.key = true
  · rw [if_pos h]
  · rw [if_neg h]

theorem restoreStep_nextId (M : Mappings) (hitId : Nat) (st : Store) (sec : CfgSection) :
    (restoreStep M hitId st sec).nextId = st.nextId := by
  unfold restoreStep addSection removeSection
  by_cases h : M.ALWAYS_PRESENT_SECTIONS.contains sec.key = true
  · rw [if_pos h]
  · rw [if_neg h]

theorem restoreStep_mirror (M : Mappings) (hitId : Nat) (st : Store) (sec : CfgSection) :
    (restoreStep M hitId st sec).parser_mirror = st.parser_mirror := by
  unfold restoreStep addSection removeSection
  by_cases h : M.ALWAYS_PRESENT_SECTIONS.contains sec.key = true
  · rw [if_pos h]
  · rw [if_neg h]

theorem restore_auto (M : Mappings) (hitId : Nat) :
    ∀ (stash : List CfgSection) (st : Store),
      (restore_original_sections M hitId st stash).auto_refresh = st.auto_refresh := by
  intro stash
  induction stash with
  | nil => intro st; rfl
  | cons a t ih =>
    intro st
    unfold restore_original_sections at ih ⊢
    rw [List.foldl_cons, ih, restoreStep_auto]

theorem restore_nextId (M : Mappings) (hitId : Nat) :
    ∀ (stash : List CfgSection) (st : Store),
      (restore_original_sections M hitId st stash).nextId = st.nextId := by
  intro stash
  induction stash with
  | nil => intro st; rfl
  | cons a t ih =>
    intro st
    unfold restore_original_sections at ih ⊢
    rw [List.foldl_cons, ih, restoreStep_nextId]

theorem restore_mirror (M : Mappings) (hitId : Nat) :
    ∀ (stash : List CfgSection) (st : Store),
      (restore_original_sections M hitId st stash).parser_mirror = st.parser_mirror := by
  intro stash
  induction stash with
  | nil => intro st; rfl
  | cons a t ih =>
    intro st
    unfold restore_original_sections at ih ⊢
    rw [List.foldl_cons, ih, restoreStep_mirror]

theorem filter_key_after_remove {X : List CfgSection} {k k2 lbl : String}
    (hk : (k2 == k) = false) :
    (X.filter (fun a => !(a.key == k2 && a.label == lbl))).filter (fun t => t.key == k)
      = X.filter (fun t => t.key == k) := by
  rw [listFilterFilter]
  apply filterCongrAll
  intro a
  cases hx : (a.key == k) with
  | true =>
    have hak : a.key = k := by simpa using hx
    have hne : k2 ≠ k := by simpa using hk
    have h2 : (a.key == k2) = false := by
      rw [hak]
      exact strBeqFalse (fun e => hne e.symm)
    rw [h2]
    simp
  | false => simp [hx]

theorem restoreStep_filter_key (M : Mappings) (hitId : Nat) (k : String)
    (st : Store) (sec : CfgSection) (hk : (sec.key == k) = false) :
    (restoreStep M hitId st sec).sections.filter (fun t => t.key == k)
      = st.sections.filter (fun t => t.key == k) := by
  have hkk : ∀ sec2 : CfgSection, sec2.key = sec.key →
      ∀ Y : List CfgSection,
        ((Y.filter (fun a => !(a.key == sec2.key && a.label == sec2.label))) ++ [sec2]).filter
          (fun t => t.key == k) = Y.filter (fun t => t.key == k) := by
    intro sec2 he Y
    rw [List.filter_append, he, filter_key_after_remove hk]
    have : ([sec2].filter (fun t => t.key == k)) = [] :=
      filterEqNilOf (fun a ha => by
        rw [List.mem_singleton.mp ha, he]
        exact hk)
    rw [this, List.append_nil]
  unfold restoreStep addSection
  by_cases h : M.ALWAYS_PRESENT_SECTIONS.contains sec.key = true
  · rw [if_pos h]
    by_cases h2 : M.CLUSTER_SIT_NESTED_SECTIONS.contains sec.key = true
    · rw [if_pos h2]
      rw [hkk { sec with parent := some hitId } rfl _]
      unfold removeSection
      exact filter_key_after_remove hk
    · rw [if_neg h2]
      rw [hkk sec rfl _]
      unfold removeSection
      exact filter_key_after_remove hk
  · rw [if_neg h]
    by_cases h2 : M.CLUSTER_SIT_NESTED_SECTIONS.contains sec.key = true
    · rw [if_pos h2]
      exact hkk { sec with parent := some hitId } rfl _
    · rw [if_neg h2]
      exact hkk sec rfl _

theorem restore_filter_key (M : Mappings) (hitId : Nat) (k : String) :
    ∀ (stash : List CfgSection) (st : Store),
      (∀ sec ∈ stash, (sec.key == k) = false) →
      (restore_original_sections M hitId st stash).sections.filter (fun t => t.key == k)
        = st.sections.filter (fun t => t.key == k) := by
  intro stash
  induction stash with
  | nil => intro st _; rfl
  | cons a t ih =>
    intro st h
    unfold restore_original_sections at ih ⊢
    rw [List.foldl_cons]
    rw [ih _ (fun sec hs => h sec (List.mem_cons_of_mem a hs))]
    exact restoreStep_filter_key M hitId k st a (h a (List.mem_cons_self a t))

theorem natBeqFalseOfNe {a b : Nat} (h : a ≠ b) : (a == b) = false := by
  simp [h]

theorem natBeqSelf (a : Nat) : (a == a) = true := by
  simp

set_option maxHeartbeats 1000000 in
/-- Structure of the slurm conversion branch: `doConvert` replaces the
legacy cluster section by the three new sections with their final
parameter tables, hands them to the restore phase, restores the saved
`auto_refresh`, cleans the file parser, and logs the start, the optional
placement warning and the completion. -/
theorem doConvert_shape (M : Mappings) (s0 : Store) (sit : CfgSection) (stash : List CfgSection) (ar : Bool)
    (hM : MWF M)
    (hck : s0.sections.filter (fun sec => sec.key == "cluster") = [sit])
    (hnq : ∀ sec ∈ s0.sections, sec.key ≠ "queue")
    (hnc : ∀ sec ∈ s0.sections, sec.key ≠ "compute_resource")
    (hid : ∀ sec ∈ s0.sections, sec.sid < s0.nextId) :
    doConvert M s0 sit stash ar
      = ({ sections := (restore_original_sections M s0.nextId (baseStore M s0 sit) stash).sections,
           auto_refresh := ar,
           nextId := s0.nextId + 3,
           parser_mirror := parserRemove s0.parser_mirror (get_file_section_name "cluster" sit.label) },
         startedMsg :: ((if (getValue sit.params "placement").eqStr "cluster"
             then [placementWarning] else []) ++ [completedMsg])) := by
  have hsitmem : sit ∈ s0.sections.filter (fun sec => sec.key == "cluster") := by
    rw [hck]; exact List.mem_singleton.mpr rfl
  have hsitkey : sit.key = "cluster" := by
    have := (List.mem_filter.mp hsitmem).2
    simpa using this
  have hL1mem : ∀ a ∈ List.filter (fun a => !(a.key == "cluster" && a.label == sit.label)) s0.sections,
      a ∈ s0.sections ∧ (a.key == "cluster" && a.label == sit.label) = false := by
    intro a ha
    have h1 := List.mem_filter.mp ha
    have h2 : (!(a.key == "cluster" && a.label == sit.label)) = true := h1.2
    refine ⟨h1.1, ?_⟩
    cases hx : (a.key == "cluster" && a.label == sit.label) with
    | false => rfl
    | true => rw [hx] at h2; simp at h2
  have hrm : removeSection
      { sections := s0.sections, auto_refresh := s0.auto_refresh, nextId := s0.nextId + 1,
        parser_mirror := s0.parser_mirror }
      sit.key sit.label
      = { sections := List.filter (fun a => !(a.key == "cluster" && a.label == sit.label)) s0.sections,
          auto_refresh := s0.auto_refresh, nextId := s0.nextId + 1,
          parser_mirror := s0.parser_mirror } := by
    simp only [removeSection]
    rw [hsitkey]
  have hcol1 : ∀ a ∈ List.filter (fun a => !(a.key == "cluster" && a.label == sit.label)) s0.sections,
      (a.key == M.CLUSTER_HIT.key && a.label == sit.label) = false := by
    intro a ha
    rw [hM.hit_key]
    exact (hL1mem a ha).2
  have e1 : addSection
      (removeSection
        { sections := s0.sections, auto_refresh := s0.auto_refresh, nextId := s0.nextId + 1,
          parser_mirror := s0.parser_mirror }
        sit.key sit.label)
      { sid := s0.nextId, key := M.CLUSTER_HIT.key, label := sit.label, parent := Option.none,
        params := defaults M.CLUSTER_HIT, isHit := M.CLUSTER_HIT.isHit }
      = { sections := (List.filter (fun a => !(a.key == "cluster" && a.label == sit.label)) s0.sections)
            ++ [{ sid := s0.nextId, key := M.CLUSTER_HIT.key, label := sit.label,
                  parent := Option.none, params := defaults M.CLUSTER_HIT,
                  isHit := M.CLUSTER_HIT.isHit }],
          auto_refresh := s0.auto_refresh, nextId := s0.nextId + 1,
          parser_mirror := s0.parser_mirror } := by
    rw [hrm]
    exact addSection_no_collision hcol1
  simp only [doConvert, newSection, copy_param_value]
  have hL1q : ∀ a ∈ List.filter (fun a => !(a.key == "cluster" && a.label == sit.label)) s0.sections,
      (a.key == M.QUEUE.key) = false := by
    intro a ha
    rw [hM.queue_key]
    exact strBeqFalse (hnq a (hL1mem a ha).1)
  have hL1c : ∀ a ∈ List.filter (fun a => !(a.key == "cluster" && a.label == sit.label)) s0.sections,
      (a.key == M.COMPUTE_RESOURCE.key) = false := by
    intro a ha
    rw [hM.cr_key]
    exact strBeqFalse (hnc a (hL1mem a ha).1)
  have hL1id : ∀ a ∈ List.filter (fun a => !(a.key == "cluster" && a.label == sit.label)) s0.sections,
      ∀ j : Nat, s0.nextId ≤ j → (a.sid == j) = false := by
    intro a ha j hj
    exact natBeqFalseOfNe (Nat.ne_of_lt (Nat.lt_of_lt_of_le (hid a (hL1mem a ha).1) hj))
  have hclq : ("cluster" == M.QUEUE.key) = false := by
    rw [hM.queue_key]
    exact strBeqFalse (by decide)
  have hclc : ("cluster" == M.COMPUTE_RESOURCE.key) = false := by
    rw [hM.cr_key]
    exact strBeqFalse (by decide)
  have hquc : ("queue" == M.COMPUTE_RESOURCE.key) = false := by
    rw [hM.cr_key]
    exact strBeqFalse (by decide)
  rw [e1]
  dsimp only
  set L1 := List.filter (fun a => !(a.key == "cluster" && a.label == sit.label)) s0.sections with hL1def
  set hit0 : CfgSection :=
    { sid := s0.nextId, key := M.CLUSTER_HIT.key, label := sit.label,
      parent := Option.none, params := defaults M.CLUSTER_HIT,
      isHit := M.CLUSTER_HIT.isHit } with hhit0
  set queue0 : CfgSection :=
    { sid := s0.nextId + 1, key := M.QUEUE.key, label := "compute",
      parent := some s0.nextId, params := defaults M.QUEUE, isHit := M.QUEUE.isHit } with hqueue0
  have e2 : addSection
      { sections := L1 ++ [hit0], auto_refresh := s0.auto_refresh, nextId := s0.nextId + 1 + 1,
        parser_mirror := s0.parser_mirror }
      queue0
      = { sections := L1 ++ [hit0, queue0], auto_refresh := s0.auto_refresh,
          nextId := s0.nextId + 1 + 1, parser_mirror := s0.parser_mirror } := by
    have hcol2 : ∀ a ∈ L1 ++ [hit0], (a.key == queue0.key && a.label == queue0.label) = false := by
      intro a ha
      cases List.mem_append.mp ha with
      | inl h =>
        rw [show queue0.key = M.QUEUE.key from rfl, hL1q a h]
        rfl
      | inr h =>
        rw [List.mem_singleton.mp h]
        rw [show (hit0.key == queue0.key) = ("cluster" == M.QUEUE.key) from by rw [hhit0, hM.hit_key]]
        rw [hclq]
        rfl
    have step : addSection
        { sections := L1 ++ [hit0], auto_refresh := s0.auto_refresh, nextId := s0.nextId + 1 + 1,
          parser_mirror := s0.parser_mirror }
        queue0
        = { sections := (L1 ++ [hit0]) ++ [queue0], auto_refresh := s0.auto_refresh,
            nextId := s0.nextId + 1 + 1, parser_mirror := s0.parser_mirror } :=
      addSection_no_collision hcol2
    rw [step, List.append_assoc]
    rfl
  rw [e2]
  have hBnil : ∀ b ∈ ([] : List CfgSection), (b.sid == s0.nextId + 1) = false :=
    fun b hb => absurd hb (List.not_mem_nil b)
  set hit1 : CfgSection :=
    { sid := s0.nextId, key := M.CLUSTER_HIT.key, label := sit.label,
      parent := Option.none, params := hitParams0 M, isHit := M.CLUSTER_HIT.isHit } with hhit1
  have e3 : setParamById
      { sections := L1 ++ [hit0, queue0], auto_refresh := s0.auto_refresh,
        nextId := s0.nextId + 1 + 1, parser_mirror := s0.parser_mirror }
      s0.nextId "queue_settings" (Value.str "compute")
      = { sections := L1 ++ [hit1, queue0], auto_refresh := s0.auto_refresh,
          nextId := s0.nextId + 1 + 1, parser_mirror := s0.parser_mirror } :=
    setParamById_split s0.nextId "queue_settings" (Value.str "compute") L1 [queue0] hit0 _
      rfl (fun a ha => hL1id a ha s0.nextId (Nat.le_refl _))
      (fun b hb => by
        rw [List.mem_singleton.mp hb]
        exact natBeqFalseOfNe (Nat.succ_ne_self s0.nextId))
      (natBeqSelf s0.nextId)
  rw [e3]
  have hA4 : ∀ a ∈ L1 ++ [hit1], (a.sid == s0.nextId + 1) = false := by
    intro a ha
    cases List.mem_append.mp ha with
    | inl h => exact hL1id a h (s0.nextId + 1) (Nat.le_succ _)
    | inr h =>
      rw [List.mem_singleton.mp h]
      exact natBeqFalseOfNe (Nat.ne_of_lt (Nat.lt_succ_self s0.nextId))
  set qp1 : Params := setValue (defaults M.QUEUE) "compute_type" (getValue sit.params "cluster_type") with hqp1
  set queue1 : CfgSection :=
    { sid := s0.nextId + 1, key := M.QUEUE.key, label := "compute",
      parent := some s0.nextId, params := qp1, isHit := M.QUEUE.isHit } with hqueue1
  have e4 : setParamById
      { sections := L1 ++ [hit1, queue0], auto_refresh := s0.auto_refresh,
        nextId := s0.nextId + 1 + 1, parser_mirror := s0.parser_mirror }
      (s0.nextId + 1) "compute_type" (getValue sit.params "cluster_type")
      = { sections := L1 ++ [hit1, queue1], auto_refresh := s0.auto_refresh,
          nextId := s0.nextId + 1 + 1, parser_mirror := s0.parser_mirror } := by
    have step := setParamById_split (s0.nextId + 1) "compute_type"
      (getValue sit.params "cluster_type") (L1 ++ [hit1]) ([] : List CfgSection) queue0
      { sections := L1 ++ [hit1, queue0], auto_refresh := s0.auto_refresh,
        nextId := s0.nextId + 1 + 1, parser_mirror := s0.parser_mirror }
      (by rw [List.append_assoc]; rfl) hA4 hBnil (natBeqSelf (s0.nextId + 1))
    rw [step, List.append_assoc]
    rfl
  rw [e4]
  set qp2 : Params :=
    setValue qp1 "enable_efa" (Value.bool ((getValue sit.params "enable_efa").eqStr "compute")) with hqp2
  set queue2 : CfgSection :=
    { sid := s0.nextId + 1, key := M.QUEUE.key, label := "compute",
      parent := some s0.nextId, params := qp2, isHit := M.QUEUE.isHit } with hqueue2
  have e5 : setParamById
      { sections := L1 ++ [hit1, queue1], auto_refresh := s0.auto_refresh,
        nextId := s0.nextId + 1 + 1, parser_mirror := s0.parser_mirror }
      (s0.nextId + 1) "enable_efa" (Value.bool ((getValue sit.params "enable_efa").eqStr "compute"))
      = { sections := L1 ++ [hit1, queue2], auto_refresh := s0.auto_refresh,
          nextId := s0.nextId + 1 + 1, parser_mirror := s0.parser_mirror } := by
    have step := setParamById_split (s0.nextId + 1) "enable_efa"
      (Value.bool ((getValue sit.params "enable_efa").eqStr "compute"))
      (L1 ++ [hit1]) ([] : List CfgSection) queue1
      { sections := L1 ++ [hit1, queue1], auto_refresh := s0.auto_refresh,
        nextId := s0.nextId + 1 + 1, parser_mirror := s0.parser_mirror }
      (by rw [List.append_assoc]; rfl) hA4 hBnil (natBeqSelf (s0.nextId + 1))
    rw [step, List.append_assoc]
    rfl
  rw [e5]
  set qp3 : Params := setValue qp2 "placement_group" (getValue sit.params "placement_group") with hqp3
  set queue3 : CfgSection :=
    { sid := s0.nextId + 1, key := M.QUEUE.key, label := "compute",
      parent := some s0.nextId, params := qp3, isHit := M.QUEUE.isHit } with hqueue3
  have e6 : setParamById
      { sections := L1 ++ [hit1, queue2], auto_refresh := s0.auto_refresh,
        nextId := s0.nextId + 1 + 1, parser_mirror := s0.parser_mirror }
      (s0.nextId + 1) "placement_group" (getValue sit.params "placement_group")
      = { sections := L1 ++ [hit1, queue3], auto_refresh := s0.auto_refresh,
          nextId := s0.nextId + 1 + 1, parser_mirror := s0.parser_mirror } := by
    have step := setParamById_split (s0.nextId + 1) "placement_group"
      (getValue sit.params "placement_group")
      (L1 ++ [hit1]) ([] : List CfgSection) queue2
      { sections := L1 ++ [hit1, queue2], auto_refresh := s0.auto_refresh,
        nextId := s0.nextId + 1 + 1, parser_mirror := s0.parser_mirror }
      (by rw [List.append_assoc]; rfl) hA4 hBnil (natBeqSelf (s0.nextId + 1))
    rw [step, List.append_assoc]
    rfl
  rw [e6]
  set compute0 : CfgSection :=
    { sid := s0.nextId + 1 + 1, key := M.COMPUTE_RESOURCE.key, label := "default",
      parent := some (s0.nextId + 1), params := defaults M.COMPUTE_RESOURCE,
      isHit := M.COMPUTE_RESOURCE.isHit } with hcompute0
  have e7 : addSection
      { sections := L1 ++ [hit1, queue3], auto_refresh := s0.auto_refresh,
        nextId := s0.nextId + 1 + 1 + 1, parser_mirror := s0.parser_mirror }
      compute0
      = { sections := L1 ++ [hit1, queue3, compute0], auto_refresh := s0.auto_refresh,
          nextId := s0.nextId + 1 + 1 + 1, parser_mirror := s0.parser_mirror } := by
    have hcol7 : ∀ a ∈ L1 ++ [hit1, queue3],
        (a.key == compute0.key && a.label == compute0.label) = false := by
      intro a ha
      cases List.mem_append.mp ha with
      | inl h =>
        rw [show compute0.key = M.COMPUTE_RESOURCE.key from rfl, hL1c a h]
        rfl
      | inr h =>
        cases List.mem_cons.mp h with
        | inl h2 =>
          rw [h2]
          rw [show (hit1.key == compute0.key) = ("cluster" == M.COMPUTE_RESOURCE.key) from by
            rw [hhit1, hM.hit_key]]
          rw [hclc]
          rfl
        | inr h2 =>
          rw [List.mem_singleton.mp h2]
          rw [show (queue3.key == compute0.key) = ("queue" == M.COMPUTE_RESOURCE.key) from by
            rw [hqueue3, hM.queue_key]]
          rw [hquc]
          rfl
    have step : addSection
        { sections := L1 ++ [hit1, queue3], auto_refresh := s0.auto_refresh,
          nextId := s0.nextId + 1 + 1 + 1, parser_mirror := s0.parser_mirror }
        compute0
        = { sections := (L1 ++ [hit1, queue3]) ++ [compute0], auto_refresh := s0.auto_refresh,
            nextId := s0.nextId + 1 + 1 + 1, parser_mirror := s0.parser_mirror } :=
      addSection_no_collision hcol7
    rw [step, List.append_assoc]
    rfl
  rw [e7]
  set qp4 : Params := setValue qp3 "compute_resource_settings" (Value.str "default") with hqp4
  set queue4 : CfgSection :=
    { sid := s0.nextId + 1, key := M.QUEUE.key, label := "compute",
      parent := some s0.nextId, params := qp4, isHit := M.QUEUE.isHit } with hqueue4
  have e8 : setParamById
      { sections := L1 ++ [hit1, queue3, compute0], auto_refresh := s0.auto_refresh,
        nextId := s0.nextId + 1 + 1 + 1, parser_mirror := s0.parser_mirror }
      (s0.nextId + 1) "compute_resource_settings" (Value.str "default")
      = { sections := L1 ++ [hit1, queue4, compute0], auto_refresh := s0.auto_refresh,
          nextId := s0.nextId + 1 + 1 + 1, parser_mirror := s0.parser_mirror } := by
    have step := setParamById_split (s0.nextId + 1) "compute_resource_settings"
      (Value.str "default") (L1 ++ [hit1]) [compute0] queue3
      { sections := L1 ++ [hit1, queue3, compute0], auto_refresh := s0.auto_refresh,
        nextId := s0.nextId + 1 + 1 + 1, parser_mirror := s0.parser_mirror }
      (by rw [List.append_assoc]; rfl) hA4
      (fun b hb => by
        rw [List.mem_singleton.mp hb]
        exact natBeqFalseOfNe (show s0.nextId + 1 + 1 ≠ s0.nextId + 1 by omega))
      (natBeqSelf (s0.nextId + 1))
    rw [step, List.append_assoc]
    rfl
  rw [e8]
  have hA9 : ∀ a ∈ L1 ++ [hit1, queue4], (a.sid == s0.nextId + 1 + 1) = false := by
    intro a ha
    cases List.mem_append.mp ha with
    | inl h => exact hL1id a h (s0.nextId + 1 + 1) (by omega)
    | inr h =>
      cases List.mem_cons.mp h with
      | inl h2 =>
        rw [h2]
        exact natBeqFalseOfNe (show s0.nextId ≠ s0.nextId + 1 + 1 by omega)
      | inr h2 =>
        rw [List.mem_singleton.mp h2]
        exact natBeqFalseOfNe (show s0.nextId + 1 ≠ s0.nextId + 1 + 1 by omega)
  have hBnil2 : ∀ b ∈ ([] : List CfgSection), (b.sid == s0.nextId + 1 + 1) = false :=
    fun b hb => absurd hb (List.not_mem_nil b)
  set cp1 : Params :=
    setValue (defaults M.COMPUTE_RESOURCE) "instance_type"
      (getValue sit.params "compute_instance_type") with hcp1
  set compute1 : CfgSection :=
    { sid := s0.nextId + 1 + 1, key := M.COMPUTE_RESOURCE.key, label := "default",
      parent := some (s0.nextId + 1), params := cp1,
      isHit := M.COMPUTE_RESOURCE.isHit } with hcompute1
  have e9 : setParamById
      { sections := L1 ++ [hit1, queue4, compute0], auto_refresh := s0.auto_refresh,
        nextId := s0.nextId + 1 + 1 + 1, parser_mirror := s0.parser_mirror }
      (s0.nextId + 1 + 1) "instance_type" (getValue sit.params "compute_instance_type")
      = { sections := L1 ++ [hit1, queue4, compute1], auto_refresh := s0.auto_refresh,
          nextId := s0.nextId + 1 + 1 + 1, parser_mirror := s0.parser_mirror } := by
    have step := setParamById_split (s0.nextId + 1 + 1) "instance_type"
      (getValue sit.params "compute_instance_type") (L1 ++ [hit1, queue4])
      ([] : List CfgSection) compute0
      { sections := L1 ++ [hit1, queue4, compute0], auto_refresh := s0.auto_refresh,
        nextId := s0.nextId + 1 + 1 + 1, parser_mirror := s0.parser_mirror }
      (by rw [List.append_assoc]; rfl) hA9 hBnil2 (natBeqSelf (s0.nextId + 1 + 1))
    rw [step, List.append_assoc]
    rfl
  rw [e9]
  set cp2 : Params := setValue cp1 "max_count" (getValue sit.params "max_queue_size") with hcp2
  set compute2 : CfgSection :=
    { sid := s0.nextId + 1 + 1, key := M.COMPUTE_RESOURCE.key, label := "default",
      parent := some (s0.nextId + 1), params := cp2,
      isHit := M.COMPUTE_RESOURCE.isHit } with hcompute2
  have e10 : setParamById
      { sections := L1 ++ [hit1, queue4, compute1], auto_refresh := s0.auto_refresh,
        nextId := s0.nextId + 1 + 1 + 1, parser_mirror := s0.parser_mirror }
      (s0.nextId + 1 + 1) "max_count" (getValue sit.params "max_queue_size")
      = { sections := L1 ++ [hit1, queue4, compute2], auto_refresh := s0.auto_refresh,
          nextId := s0.nextId + 1 + 1 + 1, parser_mirror := s0.parser_mirror } := by
    have step := setParamById_split (s0.nextId + 1 + 1) "max_count"
      (getValue sit.params "max_queue_size") (L1 ++ [hit1, queue4])
      ([] : List CfgSection) compute1
      { sections := L1 ++ [hit1, queue4, compute1], auto_refresh := s0.auto_refresh,
        nextId := s0.nextId + 1 + 1 + 1, parser_mirror := s0.parser_mirror }
      (by rw [List.append_assoc]; rfl) hA9 hBnil2 (natBeqSelf (s0.nextId + 1 + 1))
    rw [step, List.append_assoc]
    rfl
  rw [e10]
  set cp3 : Params := setValue cp2 "spot_price" (getValue sit.params "spot_price") with hcp3
  set compute3 : CfgSection :=
    { sid := s0.nextId + 1 + 1, key := M.COMPUTE_RESOURCE.key, label := "default",
      parent := some (s0.nextId + 1), params := cp3,
      isHit := M.COMPUTE_RESOURCE.isHit } with hcompute3
  have e11 : setParamById
      { sections := L1 ++ [hit1, queue4, compute2], auto_refresh := s0.auto_refresh,
        nextId := s0.nextId + 1 + 1 + 1, parser_mirror := s0.parser_mirror }
      (s0.nextId + 1 + 1) "spot_price" (getValue sit.params "spot_price")
      = { sections := L1 ++ [hit1, queue4, compute3], auto_refresh := s0.auto_refresh,
          nextId := s0.nextId + 1 + 1 + 1, parser_mirror := s0.parser_mirror } := by
    have step := setParamById_split (s0.nextId + 1 + 1) "spot_price"
      (getValue sit.params "spot_price") (L1 ++ [hit1, queue4])
      ([] : List CfgSection) compute2
      { sections := L1 ++ [hit1, queue4, compute2], auto_refresh := s0.auto_refresh,
        nextId := s0.nextId + 1 + 1 + 1, parser_mirror := s0.parser_mirror }
      (by rw [List.append_assoc]; rfl) hA9 hBnil2 (natBeqSelf (s0.nextId + 1 + 1))
    rw [step, List.append_assoc]
    rfl
  rw [e11]
  set cp4 : Params :=
    setValue cp3
      (if (getValue sit.params "maintain_initial_size").truthy = true then "min_count"
        else "initial_count")
      (getValue sit.params "initial_queue_size") with hcp4
  set compute4 : CfgSection :=
    { sid := s0.nextId + 1 + 1, key := M.COMPUTE_RESOURCE.key, label := "default",
      parent := some (s0.nextId + 1), params := cp4,
      isHit := M.COMPUTE_RESOURCE.isHit } with hcompute4
  have e12 : setParamById
      { sections := L1 ++ [hit1, queue4, compute3], auto_refresh := s0.auto_refresh,
        nextId := s0.nextId + 1 + 1 + 1, parser_mirror := s0.parser_mirror }
      (s0.nextId + 1 + 1)
      (if (getValue sit.params "maintain_initial_size").truthy = true then "min_count"
        else "initial_count")
      (getValue sit.params "initial_queue_size")
      = { sections := L1 ++ [hit1, queue4, compute4], auto_refresh := s0.auto_refresh,
          nextId := s0.nextId + 1 + 1 + 1, parser_mirror := s0.parser_mirror } := by
    have step := setParamById_split (s0.nextId + 1 + 1)
      (if (getValue sit.params "maintain_initial_size").truthy = true then "min_count"
        else "initial_count")
      (getValue sit.params "initial_queue_size") (L1 ++ [hit1, queue4])
      ([] : List CfgSection) compute3
      { sections := L1 ++ [hit1, queue4, compute3], auto_refresh := s0.auto_refresh,
        nextId := s0.nextId + 1 + 1 + 1, parser_mirror := s0.parser_mirror }
      (by rw [List.append_assoc]; rfl) hA9 hBnil2 (natBeqSelf (s0.nextId + 1 + 1))
    rw [step, List.append_assoc]
    rfl
  rw [e12]
  have e13a : getSectionById
      { sections := L1 ++ [hit1, queue4, compute4], auto_refresh := s0.auto_refresh,
        nextId := s0.nextId + 1 + 1 + 1, parser_mirror := s0.parser_mirror }
      s0.nextId
      = some hit1 :=
    getSectionById_split s0.nextId L1 [queue4, compute4] hit1 _ rfl
      (fun a ha => hL1id a ha s0.nextId (Nat.le_refl _)) (natBeqSelf s0.nextId)
  rw [e13a]
  dsimp only
  set hitF : CfgSection :=
    { sid := s0.nextId, key := M.CLUSTER_HIT.key, label := sit.label,
      parent := Option.none, params := hitParamsFinal M sit.params,
      isHit := M.CLUSTER_HIT.isHit } with hhitF
  have e13 : List.foldl
      (fun st k =>
        if (List.filter (fun k => !(k == "enable_efa"))
            (List.map (fun p => p.1) (hitParams0 M))).contains k = true
        then setParamById st s0.nextId k (getValue sit.params k)
        else st)
      { sections := L1 ++ [hit1, queue4, compute4], auto_refresh := s0.auto_refresh,
        nextId := s0.nextId + 1 + 1 + 1, parser_mirror := s0.parser_mirror }
      (List.map (fun p => p.1) sit.params)
      = { sections := L1 ++ [hitF, queue4, compute4], auto_refresh := s0.auto_refresh,
          nextId := s0.nextId + 1 + 1 + 1, parser_mirror := s0.parser_mirror } := by
    have step := fold_setParamById_split
      (fun k => (List.filter (fun k2 => !(k2 == "enable_efa"))
        (List.map (fun p => p.1) (hitParams0 M))).contains k)
      (fun k => getValue sit.params k) s0.nextId L1 [queue4, compute4]
      (fun a ha => hL1id a ha s0.nextId (Nat.le_refl _))
      (fun b hb => by
        cases List.mem_cons.mp hb with
        | inl h2 =>
          rw [h2]
          exact natBeqFalseOfNe (show s0.nextId + 1 ≠ s0.nextId by omega)
        | inr h2 =>
          rw [List.mem_singleton.mp h2]
          exact natBeqFalseOfNe (show s0.nextId + 1 + 1 ≠ s0.nextId by omega))
      (List.map (fun p => p.1) sit.params)
      { sections := L1 ++ [hit1, queue4, compute4], auto_refresh := s0.auto_refresh,
        nextId := s0.nextId + 1 + 1 + 1, parser_mirror := s0.parser_mirror }
      hit1 rfl (natBeqSelf s0.nextId)
    rw [step]
    rfl
  rw [e13]
  simp only [refresh]
  rw [show
      ({ sections := L1 ++ [hitF, queue4, compute4], auto_refresh := s0.auto_refresh,
         nextId := s0.nextId + 1 + 1 + 1, parser_mirror := s0.parser_mirror } : Store)
      = baseStore M s0 sit from rfl]
  rw [restore_nextId M s0.nextId stash (baseStore M s0 sit)]
  rw [restore_mirror M s0.nextId stash (baseStore M s0 sit)]
  simp only [clean_config_mirror, baseStore]

set_option maxHeartbeats 1000000 in
/-- Structure of `convert` on a qualifying store: the guards pass and the
slurm branch runs, producing the restored base store with `auto_refresh`
put back and the parser cleaned. -/
theorem convert_shape (M : Mappings) (s : Store) (sit : CfgSection)
    (hM : MWF M) (hs : SitStore s sit)
    (hslurm : getValue sit.params "scheduler" = Value.str "slurm") :
    convert M s = some
      ({ sections := (restore_original_sections M s.nextId
            (baseStore M { s with auto_refresh := false } sit)
            (store_original_sections M s)).sections,
         auto_refresh := s.auto_refresh,
         nextId := s.nextId + 3,
         parser_mirror := parserRemove s.parser_mirror (get_file_section_name "cluster" sit.label) },
       startedMsg :: ((if (getValue sit.params "placement").eqStr "cluster"
           then [placementWarning] else []) ++ [completedMsg])) := by
  have hfind : getSection s "cluster" = some sit := by
    unfold getSection
    rw [findEqHeadFilter, hs.cluster_filter]
    rfl
  have hfind1 : getSection { s with auto_refresh := false } "cluster" = some sit := by
    unfold getSection
    rw [show ({ s with auto_refresh := false } : Store).sections = s.sections from rfl]
    rw [findEqHeadFilter, hs.cluster_filter]
    rfl
  have hne : clusterModel s ≠ ClusterModel.HIT := by
    unfold clusterModel
    rw [hfind]
    dsimp only
    rw [hs.not_hit]
    decide
  have hsl : ((getValue sit.params "scheduler").eqStr "slurm") = true := by
    rw [hslurm]
    rfl
  unfold convert
  rw [if_neg hne]
  dsimp only
  rw [hfind1]
  dsimp only
  rw [hsl]
  rw [if_neg (show ¬((true : Bool) = false) by decide)]
  exact congrArg some (doConvert_shape M { s with auto_refresh := false } sit
    (store_original_sections M s) s.auto_refresh hM hs.cluster_filter hs.no_queue hs.no_cr hs.ids)

/-! ### Consequences of the shape theorems -/

theorem stash_aux (s : Store) :
    ∀ (ks : List String) (acc : List CfgSection) (sec : CfgSection),
      sec ∈ ks.foldl (fun acc2 k => acc2 ++ getSections s k) acc →
      sec ∈ acc ∨ ∃ k ∈ ks, sec.key = k := by
  intro ks
  induction ks with
  | nil => intro acc sec h; exact Or.inl h
  | cons a t ih =>
    intro acc sec h
    rw [List.foldl_cons] at h
    cases ih (acc ++ getSections s a) sec h with
    | inl h2 =>
      cases List.mem_append.mp h2 with
      | inl h3 => exact Or.inl h3
      | inr h3 =>
        have h4 : (sec.key == a) = true := (List.mem_filter.mp h3).2
        exact Or.inr ⟨a, List.mem_cons_self a t, by simpa using h4⟩
    | inr h2 =>
      obtain ⟨k, hk, he⟩ := h2
      exact Or.inr ⟨k, List.mem_cons_of_mem a hk, he⟩

theorem stash_mem_key (M : Mappings) (s : Store) :
    ∀ sec ∈ store_original_sections M s,
      sec.key ∈ M.CLUSTER_SIT_NESTED_SECTIONS ++ M.GLOBAL_SECTIONS := by
  intro sec h
  unfold store_original_sections at h
  cases stash_aux s (M.CLUSTER_SIT_NESTED_SECTIONS ++ M.GLOBAL_SECTIONS) [] sec h with
  | inl h2 => cases h2
  | inr h2 =>
    obtain ⟨k, hk, he⟩ := h2
    rw [he]
    exact hk

theorem stash_key_ne (M : Mappings) (s : Store) (hM : MWF M) :
    ∀ sec ∈ store_original_sections M s,
      (sec.key == "cluster") = false ∧ (sec.key == "queue") = false ∧
        (sec.key == "compute_resource") = false := by
  intro sec h
  have h2 := hM.stash_keys sec.key (stash_mem_key M s sec h)
  exact ⟨strBeqFalse h2.1, strBeqFalse h2.2.1, strBeqFalse h2.2.2⟩

theorem base_filter_aux (M : Mappings) (s : Store) (sit : CfgSection) (k : String)
    (hL1 : ∀ a ∈ s.sections.filter (fun a => !(a.key == "cluster" && a.label == sit.label)),
      (a.key == k) = false)
    : (baseSections M s sit).filter (fun t => t.key == k)
      = [hitFinal M s.nextId sit.params sit.label,
         queueFinal M s.nextId sit.params,
         computeFinal M s.nextId sit.params].filter (fun t => t.key == k) := by
  unfold baseSections
  rw [List.filter_append, filterEqNilOf hL1, List.nil_append]

theorem base_filters (M : Mappings) (s : Store) (sit : CfgSection) (hM : MWF M)
    (hck : s.sections.filter (fun t => t.key == "cluster") = [sit])
    (hnq : ∀ t ∈ s.sections, t.key ≠ "queue")
    (hnc : ∀ t ∈ s.sections, t.key ≠ "compute_resource") :
    (baseSections M s sit).filter (fun t => t.key == "cluster")
        = [hitFinal M s.nextId sit.params sit.label]
      ∧ (baseSections M s sit).filter (fun t => t.key == "queue")
        = [queueFinal M s.nextId sit.params]
      ∧ (baseSections M s sit).filter (fun t => t.key == "compute_resource")
        = [computeFinal M s.nextId sit.params] := by
  have hsitkey : sit.key = "cluster" := by
    have hm : sit ∈ s.sections.filter (fun t => t.key == "cluster") := by
      rw [hck]; exact List.mem_singleton.mpr rfl
    simpa using (List.mem_filter.mp hm).2
  have hsitlab : (sit.label == sit.label) = true := by simp
  have hL1cl : ∀ a ∈ s.sections.filter (fun a => !(a.key == "cluster" && a.label == sit.label)),
      (a.key == "cluster") = false := by
    intro a ha
    have h1 := List.mem_filter.mp ha
    cases hx : (a.key == "cluster") with
    | false => rfl
    | true =>
      have hmem : a ∈ s.sections.filter (fun t => t.key == "cluster") :=
        List.mem_filter.mpr ⟨h1.1, hx⟩
      rw [hck] at hmem
      have hasit : a = sit := List.mem_singleton.mp hmem
      have h2 : (!(a.key == "cluster" && a.label == sit.label)) = true := h1.2
      rw [hasit, show (sit.key == "cluster") = true from by simp [hsitkey], hsitlab] at h2
      simp at h2
  have hL1q : ∀ a ∈ s.sections.filter (fun a => !(a.key == "cluster" && a.label == sit.label)),
      (a.key == "queue") = false := by
    intro a ha
    exact strBeqFalse (hnq a (List.mem_filter.mp ha).1)
  have hL1c : ∀ a ∈ s.sections.filter (fun a => !(a.key == "cluster" && a.label == sit.label)),
      (a.key == "compute_resource") = false := by
    intro a ha
    exact strBeqFalse (hnc a (List.mem_filter.mp ha).1)
  have hhitk : (hitFinal M s.nextId sit.params sit.label).key = "cluster" := hM.hit_key
  have hqk : (queueFinal M s.nextId sit.params).key = "queue" := hM.queue_key
  have hcrk : (computeFinal M s.nextId sit.params).key = "compute_resource" := hM.cr_key
  refine ⟨?_, ?_, ?_⟩
  · rw [base_filter_aux M s sit "cluster" hL1cl]
    rw [List.filter_cons, List.filter_cons, List.filter_cons]
    rw [ifBeqTrue (by simp [hhitk])]
    rw [ifBeqFalse (by rw [hqk]; exact strBeqFalse (by decide))]
    rw [ifBeqFalse (by rw [hcrk]; exact strBeqFalse (by decide))]
    rfl
  · rw [base_filter_aux M s sit "queue" hL1q]
    rw [List.filter_cons, List.filter_cons, List.filter_cons]
    rw [ifBeqFalse (by rw [hhitk]; exact strBeqFalse (by decide))]
    rw [ifBeqTrue (by simp [hqk])]
    rw [ifBeqFalse (by rw [hcrk]; exact strBeqFalse (by decide))]
    rfl
  · rw [base_filter_aux M s sit "compute_resource" hL1c]
    rw [List.filter_cons, List.filter_cons, List.filter_cons]
    rw [ifBeqFalse (by rw [hhitk]; exact strBeqFalse (by decide))]
    rw [ifBeqFalse (by rw [hqk]; exact strBeqFalse (by decide))]
    rw [ifBeqTrue (by simp [hcrk])]
    rfl

theorem containsIffMem {l : List String} {a : String} : l.contains a = true ↔ a ∈ l := by
  simp [List.contains, List.elem_iff]

set_option maxHeartbeats 1000000 in
/-- Master description of a qualifying conversion: the result store holds
exactly the three new sections under their keys, and `auto_refresh` is
restored. -/
theorem convert_result (M : Mappings) (s : Store) (sit : CfgSection)
    (hM : MWF M) (hs : SitStore s sit)
    (hslurm : getValue sit.params "scheduler" = Value.str "slurm") :
    ∃ r log, convert M s = some (r, log) ∧
      r.sections.filter (fun t => t.key == "cluster")
        = [hitFinal M s.nextId sit.params sit.label] ∧
      r.sections.filter (fun t => t.key == "queue") = [queueFinal M s.nextId sit.params] ∧
      r.sections.filter (fun t => t.key == "compute_resource")
        = [computeFinal M s.nextId sit.params] ∧
      r.auto_refresh = s.auto_refresh ∧
      log = startedMsg :: ((if (getValue sit.params "placement").eqStr "cluster"
          then [placementWarning] else []) ++ [completedMsg]) := by
  have hstash := stash_key_ne M s hM
  refine ⟨_, _, convert_shape M s sit hM hs hslurm, ?_, ?_, ?_, rfl, rfl⟩
  · rw [restore_filter_key M s.nextId "cluster" (store_original_sections M s)
      (baseStore M { s with auto_refresh := false } sit)
      (fun sec h => (hstash sec h).1)]
    exact (base_filters M { s with auto_refresh := false } sit hM hs.cluster_filter
      hs.no_queue hs.no_cr).1
  · rw [restore_filter_key M s.nextId "queue" (store_original_sections M s)
      (baseStore M { s with auto_refresh := false } sit)
      (fun sec h => (hstash sec h).2.1)]
    exact (base_filters M { s with auto_refresh := false } sit hM hs.cluster_filter
      hs.no_queue hs.no_cr).2.1
  · rw [restore_filter_key M s.nextId "compute_resource" (store_original_sections M s)
      (baseStore M { s with auto_refresh := false } sit)
      (fun sec h => (hstash sec h).2.2)]
    exact (base_filters M { s with auto_refresh := false } sit hM hs.cluster_filter
      hs.no_queue hs.no_cr).2.2

theorem queueParamsFinal_values (M : Mappings) (sitp : Params) :
    getValue (queueParamsFinal M sitp) "compute_type" = getValue sitp "cluster_type" ∧
    getValue (queueParamsFinal M sitp) "enable_efa"
      = Value.bool ((getValue sitp "enable_efa").eqStr "compute") ∧
    getValue (queueParamsFinal M sitp) "placement_group" = getValue sitp "placement_group" ∧
    getValue (queueParamsFinal M sitp) "compute_resource_settings" = Value.str "default" := by
  unfold queueParamsFinal
  refine ⟨?_, ?_, ?_, ?_⟩
  · rw [getValue_setValue_ne (by decide), getValue_setValue_ne (by decide),
      getValue_setValue_ne (by decide), getValue_setValue_self]
  · rw [getValue_setValue_ne (by decide), getValue_setValue_ne (by decide),
      getValue_setValue_self]
  · rw [getValue_setValue_ne (by decide), getValue_setValue_self]
  · rw [getValue_setValue_self]

theorem computeParamsFinal_values (M : Mappings) (sitp : Params) :
    getValue (computeParamsFinal M sitp) "instance_type"
      = getValue sitp "compute_instance_type" ∧
    getValue (computeParamsFinal M sitp) "max_count" = getValue sitp "max_queue_size" ∧
    getValue (computeParamsFinal M sitp) "spot_price" = getValue sitp "spot_price" ∧
    (if (getValue sitp "maintain_initial_size").truthy
     then getValue (computeParamsFinal M sitp) "min_count" = getValue sitp "initial_queue_size"
       ∧ getValue (computeParamsFinal M sitp) "initial_count" = Value.none
     else getValue (computeParamsFinal M sitp) "initial_count"
         = getValue sitp "initial_queue_size"
       ∧ getValue (computeParamsFinal M sitp) "min_count" = Value.none) := by
  unfold computeParamsFinal sizeKey
  by_cases h : (getValue sitp "maintain_initial_size").truthy = true
  · rw [if_pos h, if_pos h]
    refine ⟨?_, ?_, ?_, ?_, ?_⟩
    · rw [getValue_setValue_ne (by decide), getValue_setValue_ne (by decide),
        getValue_setValue_ne (by decide), getValue_setValue_self]
    · rw [getValue_setValue_ne (by decide), getValue_setValue_ne (by decide),
        getValue_setValue_self]
    · rw [getValue_setValue_ne (by decide), getValue_setValue_self]
    · rw [getValue_setValue_self]
    · rw [getValue_setValue_ne (by decide), getValue_setValue_ne (by decide),
        getValue_setValue_ne (by decide), getValue_setValue_ne (by decide), getValue_defaults]
  · have h2 : (getValue sitp "maintain_initial_size").truthy = false := Bool.eq_false_iff.mpr h
    rw [if_neg h, if_neg h]
    refine ⟨?_, ?_, ?_, ?_, ?_⟩
    · rw [getValue_setValue_ne (by decide), getValue_setValue_ne (by decide),
        getValue_setValue_ne (by decide), getValue_setValue_self]
    · rw [getValue_setValue_ne (by decide), getValue_setValue_ne (by decide),
        getValue_setValue_self]
    · rw [getValue_setValue_ne (by decide), getValue_setValue_self]
    · rw [getValue_setValue_self]
    · rw [getValue_setValue_ne (by decide), getValue_setValue_ne (by decide),
        getValue_setValue_ne (by decide), getValue_setValue_ne (by decide), getValue_defaults]

theorem hitParamsFinal_qs (M : Mappings) (sitp : Params)
    (h : hasKey sitp "queue_settings" = false) :
    getValue (hitParamsFinal M sitp) "queue_settings" = Value.str "compute" := by
  unfold hitParamsFinal
  have hnm : "queue_settings" ∉ sitp.map (fun p => p.1) := by
    intro hmem
    rw [show (sitp.map (fun p => p.1)) = sitp.map Prod.fst from rfl] at hmem
    rw [← hasKey_iff_mem] at hmem
    rw [h] at hmem
    cases hmem
  have step := fold_getValue_not_mem (fun k => (hitKeysNoEfa M).contains k)
    (fun k => getValue sitp k) "queue_settings" (sitp.map (fun p => p.1)) (hitParams0 M) hnm
  exact step.trans (getValue_setValue_self (defaults M.CLUSTER_HIT) "queue_settings"
    (Value.str "compute"))

theorem hitParamsFinal_copied (M : Mappings) (sitp : Params) (k : String)
    (hk : hasKey sitp k = true) (hg : (hitKeysNoEfa M).contains k = true) :
    getValue (hitParamsFinal M sitp) k = getValue sitp k := by
  unfold hitParamsFinal
  exact fold_getValue_batch (fun k2 => (hitKeysNoEfa M).contains k2) (fun k2 => getValue sitp k2)
    k hg (sitp.map (fun p => p.1)) (hitParams0 M) (hasKey_iff_mem.mp hk)

theorem hitParamsFinal_keys (M : Mappings) (sitp : Params) :
    (hitParamsFinal M sitp).map Prod.fst = (hitParams0 M).map Prod.fst := by
  unfold hitParamsFinal
  exact fold_keys (fun k2 => (hitKeysNoEfa M).contains k2) (fun k2 => getValue sitp k2)
    (sitp.map (fun p => p.1)) (hitParams0 M)
    (fun kk _ hgkk => by
      have hmem : kk ∈ hitKeysNoEfa M := containsIffMem.mp hgkk
      have hmem2 : kk ∈ (hitParams0 M).map (fun p => p.1) := by
        have := List.mem_filter.mp (by
          unfold hitKeysNoEfa at hmem
          exact hmem)
        exact this.1
      rw [hasKey_iff_mem]
      exact hmem2)

theorem hitParamsFinal_hasKey (M : Mappings) (sitp : Params) (k : String) :
    hasKey (hitParamsFinal M sitp) k = hasKey (hitParams0 M) k := by
  cases hx : hasKey (hitParams0 M) k with
  | true =>
    rw [hasKey_iff_mem] at hx ⊢
    rw [hitParamsFinal_keys]
    exact hx
  | false =>
    cases hy : hasKey (hitParamsFinal M sitp) k with
    | false => rfl
    | true =>
      rw [hasKey_iff_mem, hitParamsFinal_keys, ← hasKey_iff_mem, hx] at hy
      cases hy

/-! ### Claim theorems -/

/-- C1: for every store whose cluster model is not HIT and whose cluster
section's scheduler is "slurm", after `convert` the store contains exactly
one cluster section carrying the legacy label, exactly one queue section
labelled "compute" whose parent is that cluster section, and exactly one
compute-resource section labelled "default" whose parent is that queue
section; the cluster's `queue_settings` is "compute" and the queue's
`compute_resource_settings` is "default". -/
theorem claim_C1 (M : Mappings) (s : Store) (sit : CfgSection)
    (hM : MWF M) (hs : SitStore s sit)
    (hslurm : getValue sit.params "scheduler" = Value.str "slurm")
    (hqs : hasKey sit.params "queue_settings" = false) :
    ∃ r log c q cr, convert M s = some (r, log) ∧
      r.sections.filter (fun t => t.key == "cluster") = [c] ∧ c.label = sit.label ∧
      r.sections.filter (fun t => t.key == "queue") = [q] ∧ q.label = "compute" ∧
      q.parent = some c.sid ∧
      r.sections.filter (fun t => t.key == "compute_resource") = [cr] ∧
      cr.label = "default" ∧ cr.parent = some q.sid ∧
      getValue c.params "queue_settings" = Value.str "compute" ∧
      getValue q.params "compute_resource_settings" = Value.str "default" := by
  obtain ⟨r, log, hc, h1, h2, h3, _, _⟩ := convert_result M s sit hM hs hslurm
  refine ⟨r, log, hitFinal M s.nextId sit.params sit.label, queueFinal M s.nextId sit.params,
    computeFinal M s.nextId sit.params, hc, h1, rfl, h2, rfl, rfl, h3, rfl, rfl, ?_, ?_⟩
  · exact hitParamsFinal_qs M sit.params hqs
  · exact (queueParamsFinal_values M sit.params).2.2.2

/-- C1 witness at the sample registry and store. -/
theorem claim_C1_witness : ∃ r log c q cr, convert M0 s0 = some (r, log) ∧
    r.sections.filter (fun t => t.key == "cluster") = [c] ∧ c.label = sit0.label ∧
    r.sections.filter (fun t => t.key == "queue") = [q] ∧ q.label = "compute" ∧
    q.parent = some c.sid ∧
    r.sections.filter (fun t => t.key == "compute_resource") = [cr] ∧
    cr.label = "default" ∧ cr.parent = some q.sid ∧
    getValue c.params "queue_settings" = Value.str "compute" ∧
    getValue q.params "compute_resource_settings" = Value.str "default" :=
  claim_C1 M0 s0 sit0 ⟨rfl, rfl, rfl, rfl, by decide⟩
    ⟨by decide, by decide, by decide, by decide, rfl⟩ (by decide) (by decide)

/-- C2: for every qualifying conversion the compute-resource section's
`instance_type`, `max_count` and `spot_price` are copies of the legacy
`compute_instance_type`, `max_queue_size` and `spot_price`, and the legacy
`initial_queue_size` goes to `min_count` when `maintain_initial_size` is
truthy and to `initial_count` otherwise, the other key staying unset. -/
theorem claim_C2 (M : Mappings) (s : Store) (sit : CfgSection)
    (hM : MWF M) (hs : SitStore s sit)
    (hslurm : getValue sit.params "scheduler" = Value.str "slurm") :
    ∃ r log cr, convert M s = some (r, log) ∧
      r.sections.filter (fun t => t.key == "compute_resource") = [cr] ∧
      getValue cr.params "instance_type" = getValue sit.params "compute_instance_type" ∧
      getValue cr.params "max_count" = getValue sit.params "max_queue_size" ∧
      getValue cr.params "spot_price" = getValue sit.params "spot_price" ∧
      (if (getValue sit.params "maintain_initial_size").truthy
       then getValue cr.params "min_count" = getValue sit.params "initial_queue_size" ∧
         getValue cr.params "initial_count" = Value.none
       else getValue cr.params "initial_count" = getValue sit.params "initial_queue_size" ∧
         getValue cr.params "min_count" = Value.none) := by
  obtain ⟨r, log, hc, _, _, h3, _, _⟩ := convert_result M s sit hM hs hslurm
  have hv := computeParamsFinal_values M sit.params
  exact ⟨r, log, computeFinal M s.nextId sit.params, hc, h3, hv.1, hv.2.1, hv.2.2.1, hv.2.2.2⟩

/-- C2 witness at a sample store with `maintain_initial_size` false. -/
theorem claim_C2_witness : ∃ r log cr, convert M0 s1 = some (r, log) ∧
    r.sections.filter (fun t => t.key == "compute_resource") = [cr] ∧
    getValue cr.params "instance_type" = getValue sit1.params "compute_instance_type" ∧
    getValue cr.params "max_count" = getValue sit1.params "max_queue_size" ∧
    getValue cr.params "spot_price" = getValue sit1.params "spot_price" ∧
    (if (getValue sit1.params "maintain_initial_size").truthy
     then getValue cr.params "min_count" = getValue sit1.params "initial_queue_size" ∧
       getValue cr.params "initial_count" = Value.none
     else getValue cr.params "initial_count" = getValue sit1.params "initial_queue_size" ∧
       getValue cr.params "min_count" = Value.none) :=
  claim_C2 M0 s1 sit1 ⟨rfl, rfl, rfl, rfl, by decide⟩
    ⟨by decide, by decide, by decide, by decide, rfl⟩ (by decide)

/-- C4: for every store whose cluster model is not HIT and whose scheduler
is not "slurm", `convert` returns normally and leaves the section tree
unchanged. -/
theorem claim_C4 (M : Mappings) (s : Store) (sit : CfgSection)
    (hfind : getSection s "cluster" = some sit)
    (hnothit : sit.isHit = false)
    (hns : ((getValue sit.params "scheduler").eqStr "slurm") = false) :
    ∃ r log, convert M s = some (r, log) ∧ r.sections = s.sections := by
  have hne : clusterModel s ≠ ClusterModel.HIT := by
    unfold clusterModel
    rw [hfind]
    dsimp only
    rw [hnothit]
    decide
  have hfind1 : getSection { s with auto_refresh := false } "cluster" = some sit := hfind
  refine ⟨{ s with auto_refresh := false }, [notRequiredMsg], ?_, rfl⟩
  unfold convert
  rw [if_neg hne]
  dsimp only
  rw [hfind1]
  dsimp only
  rw [hns, if_pos rfl]

/-- C4 witness at the non-slurm sample store. -/
theorem claim_C4_witness : ∃ r log, convert M0 sSge = some (r, log) ∧
    r.sections = sSge.sections :=
  claim_C4 M0 sSge sitSge (by decide) rfl (by decide)

/-- C5: for every qualifying conversion the queue's `enable_efa` is the
boolean result of comparing the legacy `enable_efa` value with the string
"compute" (so any other value, such as "master", yields false), and
`compute_type` and `placement_group` are straight copies of the legacy
`cluster_type` and `placement_group`. -/
theorem claim_C5 (M : Mappings) (s : Store) (sit : CfgSection)
    (hM : MWF M) (hs : SitStore s sit)
    (hslurm : getValue sit.params "scheduler" = Value.str "slurm") :
    ∃ r log q, convert M s = some (r, log) ∧
      r.sections.filter (fun t => t.key == "queue") = [q] ∧
      getValue q.params "enable_efa"
        = Value.bool ((getValue sit.params "enable_efa").eqStr "compute") ∧
      (((getValue sit.params "enable_efa").eqStr "compute") = false →
        getValue q.params "enable_efa" = Value.bool false) ∧
      getValue q.params "compute_type" = getValue sit.params "cluster_type" ∧
      getValue q.params "placement_group" = getValue sit.params "placement_group" := by
  obtain ⟨r, log, hc, _, h2, _, _, _⟩ := convert_result M s sit hM hs hslurm
  have hv := queueParamsFinal_values M sit.params
  refine ⟨r, log, queueFinal M s.nextId sit.params, hc, h2, hv.2.1, ?_, hv.1, hv.2.2.1⟩
  intro hfalse
  have hval := hv.2.1
  rw [hfalse] at hval
  exact hval

/-- C5 witness at a sample store whose legacy `enable_efa` is "master". -/
theorem claim_C5_witness : ∃ r log q, convert M0 s1 = some (r, log) ∧
    r.sections.filter (fun t => t.key == "queue") = [q] ∧
    getValue q.params "enable_efa"
      = Value.bool ((getValue sit1.params "enable_efa").eqStr "compute") ∧
    (((getValue sit1.params "enable_efa").eqStr "compute") = false →
      getValue q.params "enable_efa" = Value.bool false) ∧
    getValue q.params "compute_type" = getValue sit1.params "cluster_type" ∧
    getValue q.params "placement_group" = getValue sit1.params "placement_group" :=
  claim_C5 M0 s1 sit1 ⟨rfl, rfl, rfl, rfl, by decide⟩
    ⟨by decide, by decide, by decide, by decide, rfl⟩ (by decide)

/-- C6: converting twice equals converting once: after a qualifying
conversion the derived cluster model is HIT, a `convert` on any store whose
model is already HIT performs no mutation, and in particular the second
call returns the converted store unchanged. -/
theorem claim_C6 (M : Mappings) (s : Store) (sit : CfgSection)
    (hM : MWF M) (hs : SitStore s sit)
    (hslurm : getValue sit.params "scheduler" = Value.str "slurm") :
    (∀ t : Store, clusterModel t = ClusterModel.HIT → convert M t = some (t, [])) ∧
    ∃ r log, convert M s = some (r, log) ∧ clusterModel r = ClusterModel.HIT ∧
      convert M r = some (r, []) := by
  have hhit : ∀ t : Store, clusterModel t = ClusterModel.HIT → convert M t = some (t, []) := by
    intro t ht
    unfold convert
    rw [if_pos ht]
  obtain ⟨r, log, hc, h1, _, _, _, _⟩ := convert_result M s sit hM hs hslurm
  have hgs : getSection r "cluster" = some (hitFinal M s.nextId sit.params sit.label) := by
    unfold getSection
    rw [findEqHeadFilter, h1]
    rfl
  have hcm : clusterModel r = ClusterModel.HIT := by
    unfold clusterModel
    rw [hgs]
    dsimp only
    rw [show (hitFinal M s.nextId sit.params sit.label).isHit = M.CLUSTER_HIT.isHit from rfl]
    rw [hM.hit_hit]
    rfl
  exact ⟨hhit, r, log, hc, hcm, hhit r hcm⟩

/-- C6 witness at the sample registry and store. -/
theorem claim_C6_witness :
    (∀ t : Store, clusterModel t = ClusterModel.HIT → convert M0 t = some (t, [])) ∧
    ∃ r log, convert M0 s0 = some (r, log) ∧ clusterModel r = ClusterModel.HIT ∧
      convert M0 r = some (r, []) :=
  claim_C6 M0 s0 sit0 ⟨rfl, rfl, rfl, rfl, by decide⟩
    ⟨by decide, by decide, by decide, by decide, rfl⟩ (by decide)

/-- C7: in the final cluster-level copy step, every parameter key present
both on the legacy section and on the new HIT cluster section, except
`enable_efa`, is copied unchanged; every legacy key absent from the HIT
cluster section's keys is dropped. -/
theorem claim_C7 (M : Mappings) (s : Store) (sit : CfgSection)
    (hM : MWF M) (hs : SitStore s sit)
    (hslurm : getValue sit.params "scheduler" = Value.str "slurm") :
    ∃ r log c, convert M s = some (r, log) ∧
      r.sections.filter (fun t => t.key == "cluster") = [c] ∧
      (∀ k, hasKey sit.params k = true → hasKey c.params k = true → k ≠ "enable_efa" →
        getValue c.params k = getValue sit.params k) ∧
      (∀ k, hasKey sit.params k = true → hasKey (hitParams0 M) k = false →
        hasKey c.params k = false) := by
  obtain ⟨r, log, hc, h1, _, _, _, _⟩ := convert_result M s sit hM hs hslurm
  refine ⟨r, log, hitFinal M s.nextId sit.params sit.label, hc, h1, ?_, ?_⟩
  · intro k hks hkc hkne
    have hk0 : hasKey (hitParams0 M) k = true := by
      rw [← hitParamsFinal_hasKey M sit.params k]
      exact hkc
    have hcont : (hitKeysNoEfa M).contains k = true := by
      rw [containsIffMem]
      unfold hitKeysNoEfa
      refine List.mem_filter.mpr ⟨hasKey_iff_mem.mp hk0, ?_⟩
      rw [strBeqFalse hkne]
      rfl
    exact hitParamsFinal_copied M sit.params k hks hcont
  · intro k hks h0
    rw [show (hitFinal M s.nextId sit.params sit.label).params
      = hitParamsFinal M sit.params from rfl]
    rw [hitParamsFinal_hasKey M sit.params k]
    exact h0

/-- C7 witness at the sample registry and store. -/
theorem claim_C7_witness : ∃ r log c, convert M0 s0 = some (r, log) ∧
    r.sections.filter (fun t => t.key == "cluster") = [c] ∧
    (∀ k, hasKey sit0.params k = true → hasKey c.params k = true → k ≠ "enable_efa" →
      getValue c.params k = getValue sit0.params k) ∧
    (∀ k, hasKey sit0.params k = true → hasKey (hitParams0 M0) k = false →
      hasKey c.params k = false) :=
  claim_C7 M0 s0 sit0 ⟨rfl, rfl, rfl, rfl, by decide⟩
    ⟨by decide, by decide, by decide, by decide, rfl⟩ (by decide)

/-- C10: `_copy_param_value` applies an override exactly when it is not
`None` (even the falsy boolean false), so after every qualifying conversion
the queue's `enable_efa` holds a boolean value. -/
theorem claim_C10 (M : Mappings) (s : Store) (sit : CfgSection)
    (hM : MWF M) (hs : SitStore s sit)
    (hslurm : getValue sit.params "scheduler" = Value.str "slurm") :
    (∀ old v, copy_param_value old (some v) = v) ∧
    copy_param_value (Value.str "true") (some (Value.bool false)) = Value.bool false ∧
    ∃ r log q b, convert M s = some (r, log) ∧
      r.sections.filter (fun t => t.key == "queue") = [q] ∧
      getValue q.params "enable_efa" = Value.bool b := by
  obtain ⟨r, log, hc, _, h2, _, _, _⟩ := convert_result M s sit hM hs hslurm
  exact ⟨fun old v => rfl, rfl, r, log, queueFinal M s.nextId sit.params,
    (getValue sit.params "enable_efa").eqStr "compute", hc, h2,
    (queueParamsFinal_values M sit.params).2.1⟩

/-- C10 witness at the sample registry and store. -/
theorem claim_C10_witness :
    (∀ old v, copy_param_value old (some v) = v) ∧
    copy_param_value (Value.str "true") (some (Value.bool false)) = Value.bool false ∧
    ∃ r log q b, convert M0 s0 = some (r, log) ∧
      r.sections.filter (fun t => t.key == "queue") = [q] ∧
      getValue q.params "enable_efa" = Value.bool b :=
  claim_C10 M0 s0 sit0 ⟨rfl, rfl, rfl, rfl, by decide⟩
    ⟨by decide, by decide, by decide, by decide, rfl⟩ (by decide)

theorem doConvert_auto (M : Mappings) (s0 : Store) (sit : CfgSection)
    (stash : List CfgSection) (ar : Bool) :
    (doConvert M s0 sit stash ar).1.auto_refresh = ar := rfl

/-- C3 counterexample: on a non-HIT store whose scheduler is not "slurm",
`convert` returns with `auto_refresh` cleared to false even though it was
true at entry, so the flag is not restored on every path. -/
theorem claim_C3_counterexample :
    (convert M0 sSge).map (fun p => p.1.auto_refresh) = some false ∧
    sSge.auto_refresh = true ∧
    ¬ ((convert M0 sSge).map (fun p => p.1.auto_refresh) = some sSge.auto_refresh) := by
  refine ⟨by decide, rfl, by decide⟩

/-- C3 (amended): for every `convert` call that returns normally on a
non-HIT store, the `auto_refresh` flag at return equals the entry value on
the slurm conversion path, but is left false on the path where the
scheduler is not "slurm"; on the already-HIT path the store is untouched. -/
theorem claim_C3_amended (M : Mappings) (s : Store) (sit : CfgSection)
    (hfind : getSection s "cluster" = some sit)
    (hnothit : sit.isHit = false) :
    (∀ t : Store, clusterModel t = ClusterModel.HIT → convert M t = some (t, [])) ∧
    ∃ r log, convert M s = some (r, log) ∧
      r.auto_refresh = (if (getValue sit.params "scheduler").eqStr "slurm"
        then s.auto_refresh else false) := by
  have hhit : ∀ t : Store, clusterModel t = ClusterModel.HIT → convert M t = some (t, []) := by
    intro t ht
    unfold convert
    rw [if_pos ht]
  have hne : clusterModel s ≠ ClusterModel.HIT := by
    unfold clusterModel
    rw [hfind]
    dsimp only
    rw [hnothit]
    decide
  have hfind1 : getSection { s with auto_refresh := false } "cluster" = some sit := hfind
  refine ⟨hhit, ?_⟩
  by_cases hsl : ((getValue sit.params "scheduler").eqStr "slurm") = true
  · refine ⟨(doConvert M { s with auto_refresh := false } sit
        (store_original_sections M s) s.auto_refresh).1,
      (doConvert M { s with auto_refresh := false } sit
        (store_original_sections M s) s.auto_refresh).2, ?_, ?_⟩
    · unfold convert
      rw [if_neg hne]
      dsimp only
      rw [hfind1]
      dsimp only
      rw [hsl, if_neg (show ¬((true : Bool) = false) by decide)]
    · rw [hsl, if_pos rfl, doConvert_auto]
  · have hsl2 : ((getValue sit.params "scheduler").eqStr "slurm") = false :=
      Bool.eq_false_iff.mpr hsl
    refine ⟨{ s with auto_refresh := false }, [notRequiredMsg], ?_, ?_⟩
    · unfold convert
      rw [if_neg hne]
      dsimp only
      rw [hfind1]
      dsimp only
      rw [hsl2, if_pos rfl]
    · rw [hsl2, if_neg (show ¬((false : Bool) = true) by decide)]

/-- C3 witness at the non-slurm sample store. -/
theorem claim_C3_witness :
    (∀ t : Store, clusterModel t = ClusterModel.HIT → convert M0 t = some (t, [])) ∧
    ∃ r log, convert M0 sSge = some (r, log) ∧
      r.auto_refresh = (if (getValue sitSge.params "scheduler").eqStr "slurm"
        then sSge.auto_refresh else false) :=
  claim_C3_amended M0 sSge sitSge (by decide) rfl

theorem addSection_filter_match (st : Store) (sec : CfgSection) :
    (addSection st sec).sections.filter (fun t => t.key == sec.key && t.label == sec.label)
      = [sec] := by
  unfold addSection
  rw [List.filter_append]
  rw [filterEqNilOf (fun a ha => ?_)]
  · rw [List.nil_append, List.filter_cons, if_pos (by simp)]
    rfl
  · have h2 : (!(a.key == sec.key && a.label == sec.label)) = true := (List.mem_filter.mp ha).2
    cases hx : (a.key == sec.key && a.label == sec.label) with
    | false => rfl
    | true => rw [hx] at h2; simp at h2

theorem restoreStep_filter_match (M : Mappings) (hitId : Nat) (st : Store) (sec : CfgSection) :
    (restoreStep M hitId st sec).sections.filter
        (fun t => t.key == sec.key && t.label == sec.label)
      = [if M.CLUSTER_SIT_NESTED_SECTIONS.contains sec.key
          then { sec with parent := some hitId } else sec] := by
  unfold restoreStep
  dsimp only
  by_cases hN : M.CLUSTER_SIT_NESTED_SECTIONS.contains sec.key = true
  · rw [if_pos hN]
    exact addSection_filter_match _ { sec with parent := some hitId }
  · rw [if_neg hN]
    exact addSection_filter_match _ sec

theorem restoreStep_default_removed (M : Mappings) (hitId : Nat) (st : Store) (sec : CfgSection)
    (hAP : M.ALWAYS_PRESENT_SECTIONS.contains sec.key = true)
    (hlab : (sec.label == "default") = false) :
    (restoreStep M hitId st sec).sections.filter
      (fun t => t.key == sec.key && t.label == "default") = [] := by
  unfold restoreStep
  dsimp only
  rw [if_pos hAP]
  have hnil : ∀ (sec2 : CfgSection), sec2.key = sec.key → sec2.label = sec.label →
      (addSection (removeSection st sec.key "default") sec2).sections.filter
        (fun t => t.key == sec.key && t.label == "default") = [] := by
    intro sec2 hk hl
    unfold addSection removeSection
    rw [List.filter_append]
    rw [filterEqNilOf (fun a ha => ?_)]
    · rw [List.nil_append, List.filter_cons]
      rw [ifBeqFalse (by rw [hl]; simp [hlab])]
      rfl
    · have ha1 := List.mem_filter.mp (List.mem_filter.mp ha).1
      have h2 : (!(a.key == sec.key && a.label == "default")) = true := ha1.2
      cases hx : (a.key == sec.key && a.label == "default") with
      | false => rfl
      | true => rw [hx] at h2; simp at h2
  by_cases hN : M.CLUSTER_SIT_NESTED_SECTIONS.contains sec.key = true
  · rw [if_pos hN]
    exact hnil { sec with parent := some hitId } rfl rfl
  · rw [if_neg hN]
    exact hnil sec rfl rfl

theorem restoreStep_default_filter (M : Mappings) (hitId : Nat) (st : Store)
    (sec : CfgSection)
    (hAP : M.ALWAYS_PRESENT_SECTIONS.contains sec.key = true) :
    (restoreStep M hitId st sec).sections.filter
        (fun t => t.key == sec.key && t.label == "default")
      = (if sec.label == "default"
          then [if M.CLUSTER_SIT_NESTED_SECTIONS.contains sec.key
                then { sec with parent := some hitId } else sec]
          else []) := by
  by_cases hl : (sec.label == "default") = true
  · rw [if_pos hl, show ("default" : String) = sec.label from (eq_of_beq hl).symm]
    exact restoreStep_filter_match M hitId st sec
  · have hl2 : (sec.label == "default") = false := by
      cases h2 : (sec.label == "default") with
      | false => rfl
      | true => exact absurd h2 hl
    rw [if_neg hl]
    exact restoreStep_default_removed M hitId st sec hAP hl2

/-- C8: every stashed section is re-added by the restore phase retaining
its (key, label) identity (and object identity and parameters); when its
key is cluster-nested its parent is updated to the new HIT cluster
section; when its key is always-present, the default-labelled section of
that key is removed before the re-add, so afterwards the only
default-labelled section of that key is the re-added stashed section
itself when it carries the default label, and none otherwise. -/
theorem claim_C8 (M : Mappings) (hitId : Nat) (st : Store) (l1 : List CfgSection)
    (sec : CfgSection) :
    ∃ sec2, (restore_original_sections M hitId st (l1 ++ [sec])).sections.filter
        (fun t => t.key == sec.key && t.label == sec.label) = [sec2] ∧
      sec2.sid = sec.sid ∧ sec2.key = sec.key ∧ sec2.label = sec.label ∧
      sec2.params = sec.params ∧
      sec2.parent = (if M.CLUSTER_SIT_NESTED_SECTIONS.contains sec.key
        then some hitId else sec.parent) ∧
      (M.ALWAYS_PRESENT_SECTIONS.contains sec.key = true →
        (restore_original_sections M hitId st (l1 ++ [sec])).sections.filter
          (fun t => t.key == sec.key && t.label == "default")
          = (if sec.label == "default" then [sec2] else [])) := by
  have hsplit : restore_original_sections M hitId st (l1 ++ [sec])
      = restoreStep M hitId (restore_original_sections M hitId st l1) sec := by
    unfold restore_original_sections
    rw [List.foldl_append]
    rfl
  rw [hsplit]
  refine ⟨if M.CLUSTER_SIT_NESTED_SECTIONS.contains sec.key
      then { sec with parent := some hitId } else sec,
    restoreStep_filter_match M hitId _ sec, ?_, ?_, ?_, ?_, ?_, ?_⟩
  · by_cases hN : M.CLUSTER_SIT_NESTED_SECTIONS.contains sec.key = true
    · rw [if_pos hN]
    · rw [if_neg hN]
  · by_cases hN : M.CLUSTER_SIT_NESTED_SECTIONS.contains sec.key = true
    · rw [if_pos hN]
    · rw [if_neg hN]
  · by_cases hN : M.CLUSTER_SIT_NESTED_SECTIONS.contains sec.key = true
    · rw [if_pos hN]
    · rw [if_neg hN]
  · by_cases hN : M.CLUSTER_SIT_NESTED_SECTIONS.contains sec.key = true
    · rw [if_pos hN]
    · rw [if_neg hN]
  · by_cases hN : M.CLUSTER_SIT_NESTED_SECTIONS.contains sec.key = true
    · rw [if_pos hN, if_pos hN]
    · rw [if_neg hN, if_neg hN]
  · intro hAP
    exact restoreStep_default_filter M hitId _ sec hAP

/-- C8 witness: the stashed custom-labelled EBS section (cluster-nested,
not always-present) is restored with its identity kept and re-parented to
the new cluster section; and the stashed default-labelled scaling section
(always-present) is restored re-parented, replacing the pre-existing
default-labelled scaling section as the only one of its key and label. -/
theorem claim_C8_witness :
    (∃ sec2, (restore_original_sections M0 5 stC8 ([secC8] ++ [ebs0])).sections.filter
        (fun t => t.key == ebs0.key && t.label == ebs0.label) = [sec2] ∧
      sec2.sid = ebs0.sid ∧ sec2.key = ebs0.key ∧ sec2.label = ebs0.label ∧
      sec2.params = ebs0.params ∧
      sec2.parent = (if M0.CLUSTER_SIT_NESTED_SECTIONS.contains ebs0.key
        then some 5 else ebs0.parent) ∧
      (M0.ALWAYS_PRESENT_SECTIONS.contains ebs0.key = true →
        (restore_original_sections M0 5 stC8 ([secC8] ++ [ebs0])).sections.filter
          (fun t => t.key == ebs0.key && t.label == "default")
          = (if ebs0.label == "default" then [sec2] else []))) ∧
    (∃ sec2, (restore_original_sections M0 5 stC8 ([] ++ [scal0])).sections.filter
        (fun t => t.key == scal0.key && t.label == scal0.label) = [sec2] ∧
      sec2.sid = scal0.sid ∧ sec2.key = scal0.key ∧ sec2.label = scal0.label ∧
      sec2.params = scal0.params ∧
      sec2.parent = (if M0.CLUSTER_SIT_NESTED_SECTIONS.contains scal0.key
        then some 5 else scal0.parent) ∧
      (M0.ALWAYS_PRESENT_SECTIONS.contains scal0.key = true →
        (restore_original_sections M0 5 stC8 ([] ++ [scal0])).sections.filter
          (fun t => t.key == scal0.key && t.label == "default")
          = (if scal0.label == "default" then [sec2] else []))) :=
  ⟨claim_C8 M0 5 stC8 [secC8] ebs0, claim_C8 M0 5 stC8 [] scal0⟩
theorem queueParamsFinal_placement (M : Mappings) (sitp : Params) (v : Value) :
    queueParamsFinal M (setValue sitp "placement" v) = queueParamsFinal M sitp := by
  unfold queueParamsFinal
  rw [getValue_setValue_ne (show "cluster_type" ≠ "placement" by decide),
    getValue_setValue_ne (show "enable_efa" ≠ "placement" by decide),
    getValue_setValue_ne (show "placement_group" ≠ "placement" by decide)]

theorem computeParamsFinal_placement (M : Mappings) (sitp : Params) (v : Value) :
    computeParamsFinal M (setValue sitp "placement" v) = computeParamsFinal M sitp := by
  unfold computeParamsFinal sizeKey
  rw [getValue_setValue_ne (show "compute_instance_type" ≠ "placement" by decide),
    getValue_setValue_ne (show "max_queue_size" ≠ "placement" by decide),
    getValue_setValue_ne (show "spot_price" ≠ "placement" by decide),
    getValue_setValue_ne (show "initial_queue_size" ≠ "placement" by decide),
    getValue_setValue_ne (show "maintain_initial_size" ≠ "placement" by decide)]

theorem hitParamsFinal_placement (M : Mappings) (sitp : Params) (v : Value)
    (hp : hasKey sitp "placement" = true)
    (hph : hasKey (hitParams0 M) "placement" = false) :
    hitParamsFinal M (setValue sitp "placement" v) = hitParamsFinal M sitp := by
  unfold hitParamsFinal
  rw [show (setValue sitp "placement" v).map (fun p => p.1) = sitp.map (fun p => p.1) from
    keys_setValue_of_hasKey hp v]
  refine fold_congr_batch (fun k => (hitKeysNoEfa M).contains k)
    (fun k => getValue (setValue sitp "placement" v) k) (fun k => getValue sitp k)
    (sitp.map (fun p => p.1)) (hitParams0 M) ?_
  intro kk _ hg
  by_cases hkp : kk = "placement"
  · exfalso
    have hmem : kk ∈ hitKeysNoEfa M := containsIffMem.mp hg
    have hmem2 : kk ∈ (hitParams0 M).map (fun p => p.1) := by
      have h3 := List.mem_filter.mp (show kk ∈ ((hitParams0 M).map
        (fun p => p.1)).filter (fun k => !(k == "enable_efa")) from hmem)
      exact h3.1
    rw [hkp] at hmem2
    have : hasKey (hitParams0 M) "placement" = true := hasKey_iff_mem.mpr hmem2
    rw [hph] at this
    cases this
  · exact getValue_setValue_ne hkp sitp v
theorem foldl_append_congr (g1 g2 : String → List CfgSection) :
    ∀ (ks : List String) (acc : List CfgSection), (∀ k ∈ ks, g1 k = g2 k) →
      ks.foldl (fun a k => a ++ g1 k) acc = ks.foldl (fun a k => a ++ g2 k) acc := by
  intro ks
  induction ks with
  | nil => intro acc _; rfl
  | cons a t ih =>
    intro acc h
    rw [List.foldl_cons, List.foldl_cons, h a (List.mem_cons_self a t)]
    exact ih _ (fun k hk => h k (List.mem_cons_of_mem a hk))

set_option maxHeartbeats 1000000 in
/-- C9: during a qualifying conversion exactly one placement warning is
logged when the legacy `placement` equals "cluster" and none otherwise;
the conversion completes either way, and the resulting store does not
depend on the legacy `placement` value (which the HIT cluster schema does
not accept). -/
theorem claim_C9 (M : Mappings) (s : Store) (sit : CfgSection) (v : Value)
    (hM : MWF M) (hs : SitStore s sit)
    (hslurm : getValue sit.params "scheduler" = Value.str "slurm")
    (hp : hasKey sit.params "placement" = true)
    (hph : hasKey (hitParams0 M) "placement" = false)
    (hu : ∀ t ∈ s.sections, t.sid = sit.sid → t = sit) :
    ∃ r log, convert M s = some (r, log) ∧
      log.count placementWarning
        = (if (getValue sit.params "placement").eqStr "cluster" then 1 else 0) ∧
      ∃ r2 log2, convert M (setParamById s sit.sid "placement" v) = some (r2, log2) ∧
        r2 = r := by
  have hsitkey : sit.key = "cluster" := by
    have hm : sit ∈ s.sections.filter (fun t => t.key == "cluster") := by
      rw [hs.cluster_filter]; exact List.mem_singleton.mpr rfl
    simpa using (List.mem_filter.mp hm).2
  have hfid : ∀ a ∈ s.sections, a ≠ sit →
      (if a.sid == sit.sid then { a with params := setValue a.params "placement" v } else a)
        = a := by
    intro a ha hne
    rw [ifBeqFalse (natBeqFalseOfNe (fun he => hne (hu a ha he)))]
  have hfkey : ∀ a : CfgSection,
      ((if a.sid == sit.sid then { a with params := setValue a.params "placement" v } else a) :
        CfgSection).key = a.key := by
    intro a
    by_cases hx : (a.sid == sit.sid) = true
    · rw [ifBeqTrue hx]
    · rw [ifBeqFalse (Bool.eq_false_iff.mpr hx)]
  have hflab : ∀ a : CfgSection,
      ((if a.sid == sit.sid then { a with params := setValue a.params "placement" v } else a) :
        CfgSection).label = a.label := by
    intro a
    by_cases hx : (a.sid == sit.sid) = true
    · rw [ifBeqTrue hx]
    · rw [ifBeqFalse (Bool.eq_false_iff.mpr hx)]
  have hfsid : ∀ a : CfgSection,
      ((if a.sid == sit.sid then { a with params := setValue a.params "placement" v } else a) :
        CfgSection).sid = a.sid := by
    intro a
    by_cases hx : (a.sid == sit.sid) = true
    · rw [ifBeqTrue hx]
    · rw [ifBeqFalse (Bool.eq_false_iff.mpr hx)]
  have hfsit : (if sit.sid == sit.sid
      then { sit with params := setValue sit.params "placement" v } else sit)
      = { sit with params := setValue sit.params "placement" v } := by
    rw [ifBeqTrue (natBeqSelf sit.sid)]
  have hsec2 : (setParamById s sit.sid "placement" v).sections
      = s.sections.map (fun a =>
        if a.sid == sit.sid then { a with params := setValue a.params "placement" v } else a) :=
    rfl
  have hs2 : SitStore (setParamById s sit.sid "placement" v)
      { sit with params := setValue sit.params "placement" v } := by
    refine ⟨?_, ?_, ?_, ?_, hs.not_hit⟩
    · rw [hsec2, filterMapComm (fun a => by rw [hfkey a]), hs.cluster_filter,
        List.map_singleton, hfsit]
    · intro t ht
      rw [hsec2] at ht
      obtain ⟨a, ha, hfa⟩ := List.mem_map.mp ht
      rw [← hfa, hfkey a]
      exact hs.no_queue a ha
    · intro t ht
      rw [hsec2] at ht
      obtain ⟨a, ha, hfa⟩ := List.mem_map.mp ht
      rw [← hfa, hfkey a]
      exact hs.no_cr a ha
    · intro t ht
      rw [hsec2] at ht
      obtain ⟨a, ha, hfa⟩ := List.mem_map.mp ht
      rw [← hfa, hfsid a]
      exact hs.ids a ha
  have hslurm2 : getValue ({ sit with params := setValue sit.params "placement" v} :
      CfgSection).params "scheduler" = Value.str "slurm" := by
    rw [show ({ sit with params := setValue sit.params "placement" v} :
      CfgSection).params = setValue sit.params "placement" v from rfl]
    rw [getValue_setValue_ne (show "scheduler" ≠ "placement" by decide)]
    exact hslurm
  have hstash : store_original_sections M (setParamById s sit.sid "placement" v)
      = store_original_sections M s := by
    unfold store_original_sections
    refine foldl_append_congr _ _ (M.CLUSTER_SIT_NESTED_SECTIONS ++ M.GLOBAL_SECTIONS) [] ?_
    intro k hk
    unfold getSections
    rw [hsec2, filterMapComm (fun a => by rw [hfkey a])]
    refine mapIdOn ?_
    intro a ha
    have h1 := List.mem_filter.mp ha
    have hak : a.key = k := by simpa using h1.2
    have hkc : k ≠ "cluster" := (hM.stash_keys k hk).1
    refine hfid a h1.1 (fun hasit => ?_)
    rw [hasit, hsitkey] at hak
    exact hkc hak.symm
  have hL1 : (s.sections.map (fun a =>
        if a.sid == sit.sid then { a with params := setValue a.params "placement" v } else a)).filter
        (fun a => !(a.key == "cluster" && a.label == sit.label))
      = s.sections.filter (fun a => !(a.key == "cluster" && a.label == sit.label)) := by
    rw [filterMapComm (fun a => by rw [hfkey a, hflab a])]
    refine mapIdOn ?_
    intro a ha
    have h1 := List.mem_filter.mp ha
    refine hfid a h1.1 (fun hasit => ?_)
    have h2 : (!(a.key == "cluster" && a.label == sit.label)) = true := h1.2
    rw [hasit, show (sit.key == "cluster") = true from by simp [hsitkey],
      show (sit.label == sit.label) = true from by simp] at h2
    simp at h2
  have hbase : baseStore M { setParamById s sit.sid "placement" v with auto_refresh := false }
        { sit with params := setValue sit.params "placement" v }
      = baseStore M { s with auto_refresh := false } sit := by
    unfold baseStore baseSections
    rw [show ({ setParamById s sit.sid "placement" v with auto_refresh := false } :
      Store).sections = s.sections.map (fun a =>
        if a.sid == sit.sid then { a with params := setValue a.params "placement" v } else a)
      from rfl]
    rw [show ({ sit with params := setValue sit.params "placement" v} :
      CfgSection).label = sit.label from rfl]
    rw [hL1]
    rw [show hitFinal M ({ setParamById s sit.sid "placement" v with auto_refresh := false } :
        Store).nextId ({ sit with params := setValue sit.params "placement" v} :
        CfgSection).params ({ sit with params := setValue sit.params "placement" v} :
        CfgSection).label
      = hitFinal M s.nextId (setValue sit.params "placement" v) sit.label from rfl]
    rw [show queueFinal M ({ setParamById s sit.sid "placement" v with auto_refresh := false } :
        Store).nextId ({ sit with params := setValue sit.params "placement" v} :
        CfgSection).params
      = queueFinal M s.nextId (setValue sit.params "placement" v) from rfl]
    rw [show computeFinal M ({ setParamById s sit.sid "placement" v with auto_refresh := false } :
        Store).nextId ({ sit with params := setValue sit.params "placement" v} :
        CfgSection).params
      = computeFinal M s.nextId (setValue sit.params "placement" v) from rfl]
    unfold hitFinal queueFinal computeFinal
    rw [hitParamsFinal_placement M sit.params v hp hph,
      queueParamsFinal_placement M sit.params v,
      computeParamsFinal_placement M sit.params v]
    rfl
  have shape1 := convert_shape M s sit hM hs hslurm
  have shape2 := convert_shape M (setParamById s sit.sid "placement" v)
    { sit with params := setValue sit.params "placement" v } hM hs2 hslurm2
  refine ⟨_, _, shape1, ?_, _, _, shape2, ?_⟩
  · by_cases hpc : ((getValue sit.params "placement").eqStr "cluster") = true
    · rw [if_pos hpc, if_pos hpc]
      decide
    · rw [if_neg hpc, if_neg hpc]
      decide
  · rw [hstash, hbase]
    rfl

/-- C9 witness at the sample store, whose legacy `placement` is "cluster",
replaced by the value "spread". -/
theorem claim_C9_witness :
    ∃ r log, convert M0 s0 = some (r, log) ∧
      log.count placementWarning
        = (if (getValue sit0.params "placement").eqStr "cluster" then 1 else 0) ∧
      ∃ r2 log2, convert M0 (setParamById s0 sit0.sid "placement" (Value.str "spread"))
          = some (r2, log2) ∧ r2 = r :=
  claim_C9 M0 s0 sit0 (Value.str "spread") ⟨rfl, rfl, rfl, rfl, by decide⟩
    ⟨by decide, by decide, by decide, by decide, rfl⟩ (by decide) (by decide) (by decide)
    (by decide)
